import Mathlib

/-! Chaincode `myexample02`: a shallow embedding and its properties

The Go source `chaincode/chaincode_myexample02.go` defines one type,
`SimpleChaincode`, with the handlers `Init`, `invoke`, `delete`, the two
dispatchers `Invoke` and `Run`, and the read path `Query`.  Every handler
receives a ledger stub (`shim.ChaincodeStubInterface`) and talks to the ledger
only through `GetState`, `PutState` and `DelState`.

Modelling conventions.

* A Go `string` and a Go `[]byte` are both a Lean `String`; a `nil` byte slice
  and a `nil` error are `none`.
* A Go `error` is represented by its message.
* The Go `int` is the 64-bit two's-complement integer: a Lean `Int` that every
  arithmetic operation wraps back into the range `[-2^63, 2^63)`.
* The stub is explicit state: the ledger contents, the outcome scheduled for
  each future accessor call (so that every failure behaviour of the accessor can
  be expressed), and the trace of the accessor calls made so far.
* `fmt.Printf` only writes to standard output and is not modelled.
-/

namespace Chaincode

/-! ## Go integers and `strconv` -/

/-- Smallest value of the Go type `int` (64 bits). -/
def minInt : Int := -9223372036854775808

/-- Largest value of the Go type `int` (64 bits). -/
def maxInt : Int := 9223372036854775807

/-- Two's-complement wrap-around of a mathematical integer into the Go `int` range. -/
def wrapInt (z : Int) : Int :=
  (z + 9223372036854775808) % 18446744073709551616 - 9223372036854775808

/-- Go `a - b` on `int`. -/
def subInt (a b : Int) : Int := wrapInt (a - b)

/-- Go `a + b` on `int`. -/
def addInt (a b : Int) : Int := wrapInt (a + b)

/-- The two kinds of `strconv.NumError`: `ErrSyntax` and `ErrRange`. -/
inductive NumError where
  | invalidText
  | outOfRange
  deriving DecidableEq, Repr

/-- Largest `uint64`. -/
def maxUint64 : Nat := 18446744073709551615

/-- The constant `cutoff = maxUint64/10 + 1` of `strconv.ParseUint` in base 10. -/
def cutoff10 : Nat := 1844674407370955162

/-- The digit loop of `strconv.ParseUint(s, 10, 64)`: it stops at the first
character that is not a decimal digit (value `0`, `ErrSyntax`) and at the first
overflow (value `maxUint64`, `ErrRange`). -/
def parseUintLoop : List Char → Nat → Nat × Option NumError
  | [], n => (n, none)
  | c :: cs, n =>
    if 48 ≤ c.toNat ∧ c.toNat ≤ 57 then
      if cutoff10 ≤ n then (maxUint64, some NumError.outOfRange)
      else
        let n10 := (n * 10) % 18446744073709551616
        let n1 := (n10 + (c.toNat - 48)) % 18446744073709551616
        if n1 < n10 ∨ maxUint64 < n1 then (maxUint64, some NumError.outOfRange)
        else parseUintLoop cs n1
    else (0, some NumError.invalidText)

/-- Go `strconv.ParseUint(s, 10, 64)` on the characters of `s`. -/
def ParseUint (s : List Char) : Nat × Option NumError :=
  match s with
  | [] => (0, some NumError.invalidText)
  | _ :: _ => parseUintLoop s 0

/-- Go `strconv.ParseInt(s, 10, 0)` with `IntSize = 64`: an optional sign, then
decimal digits.  A malformed text gives `0`; an out-of-range one gives the
nearest bound of the type; both come with an error. -/
def ParseInt (s : String) : Int × Option NumError :=
  match s.data with
  | [] => (0, some NumError.invalidText)
  | c :: cs =>
    let neg : Bool := c = '-'
    let body := if c = '+' ∨ c = '-' then cs else c :: cs
    match ParseUint body with
    | (_, some NumError.invalidText) => (0, some NumError.invalidText)
    | (un, _) =>
      if neg = false ∧ 9223372036854775808 ≤ un then (maxInt, some NumError.outOfRange)
      else if neg = true ∧ 9223372036854775808 < un then (minInt, some NumError.outOfRange)
      else
        let n := wrapInt (un : Int)
        (if neg then wrapInt (-n) else n, none)

/-- Go `strconv.Atoi`, which is `ParseInt(s, 10, 0)` converted to `int`. -/
def Atoi (s : String) : Int × Option NumError := ParseInt s

/-- The decimal digit `d` as a character. -/
def digitChar (d : Nat) : Char := Char.ofNat (48 + d)

/-- The digit loop of `strconv.FormatInt` in base 10: digits are produced from
the least significant one into a buffer that holds `fuel` more characters. -/
def formatBits : Nat → Nat → List Char → List Char
  | 0, _, acc => acc
  | fuel + 1, u, acc =>
    if 10 ≤ u then formatBits fuel (u / 10) (digitChar (u % 10) :: acc)
    else digitChar u :: acc

/-- Go `strconv.FormatInt(i, 10)`: the magnitude of `i` as a `uint64` in
decimal, with a leading `-` when `i` is negative. -/
def FormatInt (i : Int) : String :=
  let u := (i % 18446744073709551616).toNat
  let u := if i < 0 then (18446744073709551616 - u) % 18446744073709551616 else u
  let ds := formatBits 20 u []
  String.mk (if i < 0 then '-' :: ds else ds)

/-- Go `strconv.Itoa`, which is `FormatInt(int64(i), 10)`. -/
def Itoa (i : Int) : String := FormatInt i

/-! ## The ledger stub -/

/-- A Go `error`, represented by its message. -/
abbrev Error := String

/-- The result `([]byte, error)` of a handler. -/
abbrev Response := Option String × Option Error

/-- Ledger contents: the value stored under each key, `none` when the key is absent. -/
abbrev Ledger := String → Option String

/-- The ledger without any entry. -/
def Ledger.empty : Ledger := fun _ => none

/-- The ledger after storing `value` under `key`. -/
def Ledger.put (l : Ledger) (key value : String) : Ledger :=
  fun k => if k = key then some value else l k

/-- The ledger after removing `key`. -/
def Ledger.del (l : Ledger) (key : String) : Ledger :=
  fun k => if k = key then none else l k

/-- One call of the ledger accessor. -/
inductive Call where
  | get (key : String)
  | put (key value : String)
  | del (key : String)
  deriving DecidableEq, Repr

/-- Whether the call is a `PutState`. -/
def Call.isPut : Call → Bool
  | Call.put _ _ => true
  | _ => false

/-- The state behind `shim.ChaincodeStubInterface`.  `getFaults`, `putFaults`
and `delFaults` schedule the outcome of the coming calls of each accessor
function: `some e` makes the call fail with error `e`, `none` (or an exhausted
schedule) lets it succeed.  `trace` lists the calls made, newest first. -/
structure Stub where
  ledger : Ledger
  getFaults : List (Option Error)
  putFaults : List (Option Error)
  delFaults : List (Option Error)
  trace : List Call

/-- Outcome scheduled for the next call. -/
def nextFault : List (Option Error) → Option Error
  | [] => none
  | f :: _ => f

/-- Outcome scheduled for the `n`-th coming `GetState` (counted from `0`). -/
def Stub.readFault (s : Stub) (n : Nat) : Option Error := nextFault (s.getFaults.drop n)

/-- Outcome scheduled for the `n`-th coming `PutState` (counted from `0`). -/
def Stub.writeFault (s : Stub) (n : Nat) : Option Error := nextFault (s.putFaults.drop n)

/-- Outcome scheduled for the `n`-th coming `DelState` (counted from `0`). -/
def Stub.deleteFault (s : Stub) (n : Nat) : Option Error := nextFault (s.delFaults.drop n)

/-- The next `n` calls of `GetState` are scheduled to succeed. -/
def Stub.readsOk (s : Stub) (n : Nat) : Prop := ∀ i, i < n → s.readFault i = none

/-- The next `n` calls of `PutState` are scheduled to succeed. -/
def Stub.writesOk (s : Stub) (n : Nat) : Prop := ∀ i, i < n → s.writeFault i = none

instance (s : Stub) (n : Nat) : Decidable (s.readsOk n) := by
  unfold Stub.readsOk
  infer_instance

instance (s : Stub) (n : Nat) : Decidable (s.writesOk n) := by
  unfold Stub.writesOk
  infer_instance

/-- The `PutState` calls recorded in the trace. -/
def Stub.writes (s : Stub) : List Call := s.trace.filter Call.isPut

/-- Modelled from the spec: the accessor `get` of the external interface
`shim.ChaincodeStubInterface`, whose code is not part of the repository.
`GetState` gives the stored bytes, `nil` for an absent key, or an error; it
never changes the ledger. -/
def GetState (s : Stub) (key : String) : Response × Stub :=
  match nextFault s.getFaults with
  | some e =>
    ((none, some e), { s with getFaults := s.getFaults.tail, trace := Call.get key :: s.trace })
  | none =>
    ((s.ledger key, none),
      { s with getFaults := s.getFaults.tail, trace := Call.get key :: s.trace })

/-- Modelled from the spec: the accessor `put` of the external interface
`shim.ChaincodeStubInterface`.  `PutState` stores the value under the key; a
call that fails stores nothing. -/
def PutState (s : Stub) (key value : String) : Option Error × Stub :=
  match nextFault s.putFaults with
  | some e =>
    (some e, { s with putFaults := s.putFaults.tail, trace := Call.put key value :: s.trace })
  | none =>
    (none, { s with ledger := s.ledger.put key value, putFaults := s.putFaults.tail,
                    trace := Call.put key value :: s.trace })

/-- Modelled from the spec: the accessor `delete` of the external interface
`shim.ChaincodeStubInterface`.  `DelState` removes the key, present or not; a
call that fails removes nothing. -/
def DelState (s : Stub) (key : String) : Option Error × Stub :=
  match nextFault s.delFaults with
  | some e =>
    (some e, { s with delFaults := s.delFaults.tail, trace := Call.del key :: s.trace })
  | none =>
    (none, { s with ledger := s.ledger.del key, delFaults := s.delFaults.tail,
                    trace := Call.del key :: s.trace })

/-! ## The handlers of `SimpleChaincode` -/

namespace SimpleChaincode

/-- Handler `Init`: stores arguments 0 to 3 under `Id`, `Name`, `Date`, `Detail`. -/
def Init (stub : Stub) (_function : String) (args : List String) : Response × Stub :=
  if h : args.length ≠ 8 then
    ((none, some "Incorrect number of arguments. Expecting 8"), stub)
  else
    match PutState stub "Id" args[0] with
    | (some _, stub) => ((none, some " Id: ERROR! "), stub)
    | (none, stub) =>
      match PutState stub "Name" args[1] with
      | (some _, stub) => ((none, some " Name: ERROR! "), stub)
      | (none, stub) =>
        match PutState stub "Date" args[2] with
        | (some _, stub) => ((none, some " Date: ERROR! "), stub)
        | (none, stub) =>
          match PutState stub "Detail" args[3] with
          | (some _, stub) => ((none, some " Detail: ERROR! "), stub)
          | (none, stub) => ((none, none), stub)

/-- Handler `invoke`: the transaction that pays `X` units from `A` to `B`. -/
def invoke (stub : Stub) (args : List String) : Response × Stub :=
  if h : args.length ≠ 3 then
    ((none, some "Incorrect number of arguments. Expecting 3"), stub)
  else
    let A := args[0]
    let B := args[1]
    match GetState stub A with
    | ((_, some _), stub) => ((none, some "Failed to get state"), stub)
    | ((none, none), stub) => ((none, some "Entity not found"), stub)
    | ((some Avalbytes, none), stub) =>
      let Aval := (Atoi Avalbytes).1
      match GetState stub B with
      | ((_, some _), stub) => ((none, some "Failed to get state"), stub)
      | ((none, none), stub) => ((none, some "Entity not found"), stub)
      | ((some Bvalbytes, none), stub) =>
        let Bval := (Atoi Bvalbytes).1
        let X := (Atoi args[2]).1
        let Aval := subInt Aval X
        let Bval := addInt (addInt (addInt Bval X) 1) 1
        match PutState stub A (Itoa Aval) with
        | (some err, stub) => ((none, some err), stub)
        | (none, stub) =>
          match PutState stub B (Itoa Bval) with
          | (some err, stub) => ((none, some err), stub)
          | (none, stub) => ((none, none), stub)

/-- Handler `delete`: removes an entity from the state. -/
def delete (stub : Stub) (args : List String) : Response × Stub :=
  if h : args.length ≠ 1 then
    ((none, some "Incorrect number of arguments. Expecting 3"), stub)
  else
    let A := args[0]
    match DelState stub A with
    | (some _, stub) => ((none, some "Failed to delete state"), stub)
    | (none, stub) => ((none, none), stub)

/-- Dispatcher `Invoke`. -/
def Invoke (stub : Stub) (function : String) (args : List String) : Response × Stub :=
  if function = "invoke" then invoke stub args
  else if function = "init" then Init stub function args
  else if function = "delete" then delete stub args
  else ((none, some "Received unknown function invocation"), stub)

/-- Dispatcher `Run`, the older entry point. -/
def Run (stub : Stub) (function : String) (args : List String) : Response × Stub :=
  if function = "invoke" then invoke stub args
  else if function = "init" then Init stub function args
  else if function = "delete" then delete stub args
  else ((none, some "Received unknown function invocation"), stub)

/-- Read path `Query`.  The result is `none` when the Go code stops with the
run-time error "index out of range" at `args[0]`. -/
def Query (stub : Stub) (function : String) (args : List String) : Option (Response × Stub) :=
  if function ≠ "query" then
    some ((none, some "1113 Invalid query function name. Expecting \x22query\x22"), stub)
  else
    match args[0]? with
    | none => none
    | some _key => some ((none, none), stub)

end SimpleChaincode

open SimpleChaincode

/-! ## Sample states -/

/-- A stub over the given ledger whose accessor never fails and has not been called. -/
def Stub.fresh (l : Ledger) : Stub :=
  { ledger := l, getFaults := [], putFaults := [], delFaults := [], trace := [] }

/-- The ledger of the transfer scenario: `A` holds `100` and `B` holds `50`. -/
def ledgerAB : Ledger := (Ledger.empty.put "A" "100").put "B" "50"

/-- The ledger of the same scenario with `A` at the smallest `int`. -/
def ledgerMin : Ledger := (Ledger.empty.put "A" "-9223372036854775808").put "B" "50"

/-- A stub over the empty ledger whose third `PutState` fails. -/
def stubThirdWriteFails : Stub :=
  { ledger := Ledger.empty, getFaults := [], putFaults := [none, none, some "write refused"],
    delFaults := [], trace := [] }

/-- The argument list of the initialisation scenario. -/
def argsInit : List String := ["id1", "name1", "2024-01-01", "detail1", "x", "x", "x", "x"]

/-- The key written by the `i`-th `PutState` of `Init`. -/
def fieldKey : Nat → String
  | 0 => "Id"
  | 1 => "Name"
  | 2 => "Date"
  | _ => "Detail"

/-- A stub over the given ledger whose second `PutState` fails. -/
def stubSecondWriteFails (l : Ledger) : Stub :=
  { ledger := l, getFaults := [], putFaults := [none, some "write refused"],
    delFaults := [], trace := [] }

/-- A ledger whose entry `A` is not a numeral at all. -/
def ledgerText : Ledger := (Ledger.empty.put "A" "abc").put "B" "50"

/-- A ledger whose entry `A` is not a numeral and starts with twenty digits. -/
def ledgerLong : Ledger := (Ledger.empty.put "A" "99999999999999999999x").put "B" "50"

/-- A ledger whose entries hold the largest `int`. -/
def ledgerMax : Ledger :=
  (Ledger.empty.put "A" "9223372036854775807").put "B" "9223372036854775807"


/-! ## Auxiliary facts -/

theorem wrapInt_of_inRange (z : Int) (h : minInt ≤ z ∧ z ≤ maxInt) : wrapInt z = z := by
  unfold minInt maxInt at h
  unfold wrapInt
  omega

theorem wrapInt_add_wrapInt (z c : Int) : wrapInt (wrapInt z + c) = wrapInt (z + c) := by
  unfold wrapInt
  omega

theorem addInt_one_one (b x : Int) : addInt (addInt (addInt b x) 1) 1 = wrapInt (b + x + 2) := by
  simp only [addInt, wrapInt_add_wrapInt]
  congr 1
  ring

theorem drop_two_eq {α : Type} (l : List α) : l.drop 2 = l.tail.tail := by
  rcases l with _ | ⟨a, _ | ⟨b, l⟩⟩ <;> rfl

theorem drop_three_eq {α : Type} (l : List α) : l.drop 3 = l.tail.tail.tail := by
  rcases l with _ | ⟨a, _ | ⟨b, _ | ⟨c, l⟩⟩⟩ <;> rfl

theorem readsOk_two (s : Stub) (h : s.readsOk 2) :
    nextFault s.getFaults = none ∧ nextFault s.getFaults.tail = none := by
  have h0 := h 0 (by omega)
  have h1 := h 1 (by omega)
  simp only [Stub.readFault, List.drop_zero, List.drop_one] at h0 h1
  exact ⟨h0, h1⟩

theorem writesOk_two (s : Stub) (h : s.writesOk 2) :
    nextFault s.putFaults = none ∧ nextFault s.putFaults.tail = none := by
  have h0 := h 0 (by omega)
  have h1 := h 1 (by omega)
  simp only [Stub.writeFault, List.drop_zero, List.drop_one] at h0 h1
  exact ⟨h0, h1⟩

theorem writesOk_four (s : Stub) (h : s.writesOk 4) :
    nextFault s.putFaults = none ∧ nextFault s.putFaults.tail = none ∧
    nextFault s.putFaults.tail.tail = none ∧ nextFault s.putFaults.tail.tail.tail = none := by
  have h0 := h 0 (by omega)
  have h1 := h 1 (by omega)
  have h2 := h 2 (by omega)
  have h3 := h 3 (by omega)
  simp only [Stub.writeFault, List.drop_zero, List.drop_one, drop_two_eq, drop_three_eq]
    at h0 h1 h2 h3
  exact ⟨h0, h1, h2, h3⟩

theorem GetState_ok (s : Stub) (key : String) (h : nextFault s.getFaults = none) :
    GetState s key = ((s.ledger key, none),
      { s with getFaults := s.getFaults.tail, trace := Call.get key :: s.trace }) := by
  simp [GetState, h]

theorem PutState_ok (s : Stub) (key value : String) (h : nextFault s.putFaults = none) :
    PutState s key value = (none,
      { s with ledger := s.ledger.put key value, putFaults := s.putFaults.tail,
               trace := Call.put key value :: s.trace }) := by
  simp [PutState, h]

theorem PutState_err (s : Stub) (key value : String) (e : Error)
    (h : nextFault s.putFaults = some e) :
    PutState s key value = (some e,
      { s with putFaults := s.putFaults.tail, trace := Call.put key value :: s.trace }) := by
  simp [PutState, h]

theorem DelState_ok (s : Stub) (key : String) (h : nextFault s.delFaults = none) :
    DelState s key = (none,
      { s with ledger := s.ledger.del key, delFaults := s.delFaults.tail,
               trace := Call.del key :: s.trace }) := by
  simp [DelState, h]

theorem length_eq_eight (args : List String) (h : args.length = 8) :
    ∃ a0 a1 a2 a3 a4 a5 a6 a7, args = [a0, a1, a2, a3, a4, a5, a6, a7] := by
  rcases args with _ | ⟨a0, _ | ⟨a1, _ | ⟨a2, _ | ⟨a3, _ | ⟨a4, _ | ⟨a5, _ | ⟨a6, _ | ⟨a7, l⟩⟩⟩⟩⟩⟩⟩⟩ <;>
    simp at h
  subst h
  exact ⟨a0, a1, a2, a3, a4, a5, a6, a7, rfl⟩

theorem invoke_ok (s : Stub) (A B X va vb : String)
    (hA : s.ledger A = some va) (hB : s.ledger B = some vb)
    (hr : s.readsOk 2) (hw : s.writesOk 2) :
    invoke s [A, B, X] = ((none, none),
      { ledger := (s.ledger.put A (Itoa (wrapInt ((Atoi va).1 - (Atoi X).1)))).put B
                    (Itoa (wrapInt ((Atoi vb).1 + (Atoi X).1 + 2))),
        getFaults := s.getFaults.tail.tail,
        putFaults := s.putFaults.tail.tail,
        delFaults := s.delFaults,
        trace := Call.put B (Itoa (wrapInt ((Atoi vb).1 + (Atoi X).1 + 2))) ::
                 Call.put A (Itoa (wrapInt ((Atoi va).1 - (Atoi X).1))) ::
                 Call.get B :: Call.get A :: s.trace }) := by
  obtain ⟨hr0, hr1⟩ := readsOk_two s hr
  obtain ⟨hw0, hw1⟩ := writesOk_two s hw
  simp only [invoke]
  simp only [List.length_cons, List.length_nil]
  simp
  rw [GetState_ok s A hr0]
  simp only [hA]
  simp [GetState_ok, PutState_ok, hr0, hr1, hw0, hw1, hA, hB, addInt_one_one, subInt]

/-! ## Decoding what `Itoa` encodes -/

theorem digitChar_toNat (d : Nat) (h : d < 10) : (digitChar d).toNat = 48 + d := by
  have hall : ∀ k, k < 10 → (digitChar k).toNat = 48 + k := by decide
  exact hall d h

theorem parseUintLoop_digit (d m : Nat) (acc : List Char) (hd : d < 10)
    (hm : m * 10 + d ≤ maxUint64) :
    parseUintLoop (digitChar d :: acc) m = parseUintLoop acc (m * 10 + d) := by
  unfold maxUint64 at hm
  have hc : ¬ cutoff10 ≤ m := by
    unfold cutoff10
    omega
  have e1 : m * 10 % 18446744073709551616 = m * 10 := Nat.mod_eq_of_lt (by omega)
  have e2 : (m * 10 + d) % 18446744073709551616 = m * 10 + d := Nat.mod_eq_of_lt (by omega)
  have hov : ¬ (m * 10 + d < m * 10 ∨ maxUint64 < m * 10 + d) := by
    unfold maxUint64
    omega
  simp only [parseUintLoop, digitChar_toNat d hd]
  rw [if_pos (by omega), if_neg hc]
  simp only [e1, Nat.add_sub_cancel_left, e2]
  rw [if_neg hov]

theorem parseUintLoop_formatBits (fuel : Nat) :
    ∀ (u : Nat) (acc : List Char), u < 10 ^ fuel → u ≤ maxUint64 →
      parseUintLoop (formatBits fuel u acc) 0 = parseUintLoop acc u := by
  induction fuel with
  | zero =>
    intro u acc hu _
    have h0 : u = 0 := by simpa using hu
    subst h0
    rfl
  | succ fuel ih =>
    intro u acc hu hmax
    unfold formatBits
    by_cases h10 : 10 ≤ u
    · rw [if_pos h10]
      have hq : u / 10 < 10 ^ fuel := by
        rw [Nat.div_lt_iff_lt_mul (by decide)]
        rw [pow_succ] at hu
        exact hu
      have hqm : u / 10 ≤ maxUint64 := le_trans (Nat.div_le_self u 10) hmax
      rw [ih (u / 10) (digitChar (u % 10) :: acc) hq hqm]
      have hd : u % 10 < 10 := Nat.mod_lt u (by decide)
      have hu2 : u / 10 * 10 + u % 10 = u := by omega
      rw [parseUintLoop_digit (u % 10) (u / 10) acc hd (by rw [hu2]; exact hmax), hu2]
    · rw [if_neg h10]
      have hd : u < 10 := by omega
      have := parseUintLoop_digit u 0 acc hd (by simpa using hmax)
      simpa using this

theorem formatBits_head (fuel : Nat) :
    ∀ (u : Nat) (acc : List Char),
      ∃ d rest, d < 10 ∧ formatBits (fuel + 1) u acc = digitChar d :: rest := by
  induction fuel with
  | zero =>
    intro u acc
    unfold formatBits
    by_cases h10 : 10 ≤ u
    · rw [if_pos h10]
      exact ⟨u % 10, acc, Nat.mod_lt u (by decide), rfl⟩
    · rw [if_neg h10]
      exact ⟨u, acc, by omega, rfl⟩
  | succ fuel ih =>
    intro u acc
    unfold formatBits
    by_cases h10 : 10 ≤ u
    · rw [if_pos h10]
      exact ih (u / 10) (digitChar (u % 10) :: acc)
    · rw [if_neg h10]
      exact ⟨u, acc, by omega, rfl⟩

theorem ParseUint_formatBits (u : Nat) (hmax : u ≤ maxUint64) :
    ParseUint (formatBits 20 u []) = (u, none) := by
  obtain ⟨d, rest, _, hfb⟩ := formatBits_head 19 u []
  have hlt : u < 10 ^ 20 := by
    unfold maxUint64 at hmax
    omega
  have hp := parseUintLoop_formatBits 20 u [] hlt hmax
  rw [hfb] at hp ⊢
  simp only [ParseUint]
  rw [hp]
  rfl

/-- Decoding the text that `Itoa` writes for a value of the `int` range gives
the value back, without error. -/
theorem Atoi_Itoa (n : Int) (h : minInt ≤ n ∧ n ≤ maxInt) : Atoi (Itoa n) = (n, none) := by
  unfold minInt maxInt at h
  by_cases hneg : n < 0
  · have hu : ((18446744073709551616 - (n % 18446744073709551616).toNat)
        % 18446744073709551616 : Nat) = (-n).toNat := by omega
    have hmax : (-n).toNat ≤ maxUint64 := by
      unfold maxUint64
      omega
    have hP := ParseUint_formatBits (-n).toNat hmax
    have h1 : ¬ (9223372036854775808 < (-n).toNat) := by omega
    simp only [Atoi, Itoa, FormatInt, ParseInt, if_pos hneg, hu]
    simp [hP, h1]
    rw [max_eq_left (by omega)]
    unfold wrapInt
    omega
  · have hu : (n % 18446744073709551616).toNat = n.toNat := by omega
    have hmax : n.toNat ≤ maxUint64 := by
      unfold maxUint64
      omega
    have hP := ParseUint_formatBits n.toNat hmax
    obtain ⟨d, rest, hd, hfb⟩ := formatBits_head 19 n.toNat []
    have hc := digitChar_toNat d hd
    have hplus : digitChar d ≠ '+' := by
      intro hEq
      rw [hEq] at hc
      have : ('+' : Char).toNat = 43 := by decide
      omega
    have hminus : digitChar d ≠ '-' := by
      intro hEq
      rw [hEq] at hc
      have : ('-' : Char).toNat = 45 := by decide
      omega
    rw [hfb] at hP
    simp only [Atoi, Itoa, FormatInt, ParseInt, if_neg hneg, hu, hfb]
    have h1 : ¬ (9223372036854775808 ≤ n.toNat) := by omega
    simp only [hplus, hminus, or_self, if_false, hP]
    simp [h1]
    rw [max_eq_left (by omega)]
    unfold wrapInt
    omega

/-! ## The transfer handler `invoke` -/

/-- C1 (as amended): for distinct keys `A` and `B` whose stored texts `Atoi`
decodes without error to `a` and `b`, and an amount text decoded without error
to `x`, `invoke [A, B, X]` with succeeding reads and writes returns no payload
and no error, and leaves `A` with the text of `a - x` and `B` with the text of
`b + x + 2`, both in wrap-around `int` arithmetic; whenever `a - x` (resp.
`b + x + 2`) lies in the `int` range the stored text is that of the exact
integer. -/
theorem invoke_transfer (s : Stub) (A B X va vb : String) (a b x : Int)
    (hAB : A ≠ B)
    (hA : s.ledger A = some va) (hB : s.ledger B = some vb)
    (ha : Atoi va = (a, none)) (hb : Atoi vb = (b, none)) (hx : Atoi X = (x, none))
    (hr : s.readsOk 2) (hw : s.writesOk 2) :
    (invoke s [A, B, X]).1 = (none, none) ∧
    (invoke s [A, B, X]).2.ledger A = some (Itoa (wrapInt (a - x))) ∧
    (invoke s [A, B, X]).2.ledger B = some (Itoa (wrapInt (b + x + 2))) ∧
    (minInt ≤ a - x ∧ a - x ≤ maxInt →
      (invoke s [A, B, X]).2.ledger A = some (Itoa (a - x))) ∧
    (minInt ≤ b + x + 2 ∧ b + x + 2 ≤ maxInt →
      (invoke s [A, B, X]).2.ledger B = some (Itoa (b + x + 2))) := by
  rw [invoke_ok s A B X va vb hA hB hr hw, ha, hb, hx]
  have hA2 : (((s.ledger.put A (Itoa (wrapInt (a - x)))).put B
      (Itoa (wrapInt (b + x + 2)))) : Ledger) A = some (Itoa (wrapInt (a - x))) := by
    simp [Ledger.put, hAB]
  have hB2 : (((s.ledger.put A (Itoa (wrapInt (a - x)))).put B
      (Itoa (wrapInt (b + x + 2)))) : Ledger) B = some (Itoa (wrapInt (b + x + 2))) := by
    simp [Ledger.put]
  refine ⟨rfl, hA2, hB2, ?_, ?_⟩
  · intro h
    exact hA2.trans (by rw [wrapInt_of_inRange _ h])
  · intro h
    exact hB2.trans (by rw [wrapInt_of_inRange _ h])

/-- C1, the scenario of the specification: `A = "100"`, `B = "50"`, `X = "10"`
gives `A = "90"` and `B = "62"`. -/
theorem invoke_transfer_witness :
    ("A" ≠ "B" ∧ ledgerAB "A" = some "100" ∧ ledgerAB "B" = some "50" ∧
      Atoi "100" = (100, none) ∧ Atoi "50" = (50, none) ∧ Atoi "10" = (10, none) ∧
      Itoa (wrapInt (100 - 10)) = "90" ∧ Itoa (wrapInt (50 + 10 + 2)) = "62") ∧
    ((invoke (Stub.fresh ledgerAB) ["A", "B", "10"]).1 = (none, none) ∧
      (invoke (Stub.fresh ledgerAB) ["A", "B", "10"]).2.ledger "A"
        = some (Itoa (wrapInt (100 - 10))) ∧
      (invoke (Stub.fresh ledgerAB) ["A", "B", "10"]).2.ledger "B"
        = some (Itoa (wrapInt (50 + 10 + 2))) ∧
      (minInt ≤ 100 - 10 ∧ 100 - 10 ≤ maxInt →
        (invoke (Stub.fresh ledgerAB) ["A", "B", "10"]).2.ledger "A" = some (Itoa (100 - 10))) ∧
      (minInt ≤ 50 + 10 + 2 ∧ 50 + 10 + 2 ≤ maxInt →
        (invoke (Stub.fresh ledgerAB) ["A", "B", "10"]).2.ledger "B"
          = some (Itoa (50 + 10 + 2)))) :=
  ⟨by decide,
   invoke_transfer (Stub.fresh ledgerAB) "A" "B" "10" "100" "50" 100 50 10
     (by decide) (by decide) (by decide) (by decide) (by decide) (by decide)
     (by decide) (by decide)⟩

/-- C1 as stated fails.  With source and destination the same key `A = "100"`
and `X = "10"` every premise holds, yet `A` ends with `"112"`, not with the text
`"90"` of `oldA - X`.  With `A` at the smallest `int` and `X = "1"` the stored
text is that of the largest `int`, not of `oldA - X`. -/
theorem invoke_transfer_counterexample :
    (ledgerAB "A" = some "100" ∧ Atoi "100" = (100, none) ∧ Atoi "10" = (10, none) ∧
      (Stub.fresh ledgerAB).readsOk 2 ∧ (Stub.fresh ledgerAB).writesOk 2 ∧
      (invoke (Stub.fresh ledgerAB) ["A", "A", "10"]).1 = (none, none) ∧
      (invoke (Stub.fresh ledgerAB) ["A", "A", "10"]).2.ledger "A" = some "112" ∧
      Itoa (100 - 10) = "90" ∧
      (invoke (Stub.fresh ledgerAB) ["A", "A", "10"]).2.ledger "A"
        ≠ some (Itoa (100 - 10))) ∧
    (ledgerMin "A" = some "-9223372036854775808" ∧
      Atoi "-9223372036854775808" = (-9223372036854775808, none) ∧
      Atoi "1" = (1, none) ∧
      (invoke (Stub.fresh ledgerMin) ["A", "B", "1"]).1 = (none, none) ∧
      (invoke (Stub.fresh ledgerMin) ["A", "B", "1"]).2.ledger "A"
        = some "9223372036854775807" ∧
      Itoa (-9223372036854775808 - 1) = "-9223372036854775809" ∧
      (invoke (Stub.fresh ledgerMin) ["A", "B", "1"]).2.ledger "A"
        ≠ some (Itoa (-9223372036854775808 - 1))) := by
  decide


/-- C2: when `A` or `B` is absent from the ledger and the reads that are made
succeed (the first one, and the second one when `A` is present), `invoke
[A, B, X]` fails with "Entity not found" and performs no write: the ledger, the
write schedule and the recorded `PutState` calls are those of before the
call. -/
theorem invoke_entity_not_found (s : Stub) (A B X : String)
    (habs : s.ledger A = none ∨ s.ledger B = none)
    (hr0 : s.readFault 0 = none) (hr1 : s.ledger A ≠ none → s.readFault 1 = none) :
    (invoke s [A, B, X]).1 = (none, some "Entity not found") ∧
    (invoke s [A, B, X]).2.ledger = s.ledger ∧
    (invoke s [A, B, X]).2.putFaults = s.putFaults ∧
    (invoke s [A, B, X]).2.writes = s.writes := by
  simp only [Stub.readFault, List.drop_zero, List.drop_one] at hr0 hr1
  simp only [invoke]
  simp only [List.length_cons, List.length_nil]
  simp
  rw [GetState_ok s A hr0]
  cases hA : s.ledger A with
  | none => simp [Stub.writes, Call.isPut]
  | some va =>
    have hB : s.ledger B = none := by
      rcases habs with h | h
      · rw [hA] at h
        cases h
      · exact h
    have hr1b : nextFault s.getFaults.tail = none := hr1 (by simp [hA])
    simp [GetState_ok, hr1b, hB, Stub.writes, Call.isPut]

/-- C2 at a concrete input: `A` holds `100` and the destination `C` is absent. -/
theorem invoke_entity_not_found_witness :
    (ledgerAB "A" = some "100" ∧ ledgerAB "C" = none) ∧
    ((invoke (Stub.fresh ledgerAB) ["A", "C", "10"]).1 = (none, some "Entity not found") ∧
      (invoke (Stub.fresh ledgerAB) ["A", "C", "10"]).2.ledger = (Stub.fresh ledgerAB).ledger ∧
      (invoke (Stub.fresh ledgerAB) ["A", "C", "10"]).2.putFaults
        = (Stub.fresh ledgerAB).putFaults ∧
      (invoke (Stub.fresh ledgerAB) ["A", "C", "10"]).2.writes
        = (Stub.fresh ledgerAB).writes) :=
  ⟨by decide,
   invoke_entity_not_found (Stub.fresh ledgerAB) "A" "C" "10"
     (Or.inr (by decide)) (by decide) (fun _ => by decide)⟩

/-- C3: with an argument list whose length is not 3, `invoke` fails with
"Incorrect number of arguments. Expecting 3" and hands back the stub as it
received it: no accessor call was made, the ledger is unchanged. -/
theorem invoke_argument_count (s : Stub) (args : List String) (h : args.length ≠ 3) :
    invoke s args = ((none, some "Incorrect number of arguments. Expecting 3"), s) := by
  simp [invoke, h]

/-- C3 at concrete inputs: two arguments. -/
theorem invoke_argument_count_witness :
    ["A", "B"].length ≠ 3 ∧
    invoke (Stub.fresh ledgerAB) ["A", "B"]
      = ((none, some "Incorrect number of arguments. Expecting 3"), Stub.fresh ledgerAB) :=
  ⟨by decide, invoke_argument_count (Stub.fresh ledgerAB) ["A", "B"] (by decide)⟩

/-! ## The handler `Init` -/

theorem Init_ok (s : Stub) (f a0 a1 a2 a3 a4 a5 a6 a7 : String) (hw : s.writesOk 4) :
    Init s f [a0, a1, a2, a3, a4, a5, a6, a7] = ((none, none),
      { ledger := (((s.ledger.put "Id" a0).put "Name" a1).put "Date" a2).put "Detail" a3,
        getFaults := s.getFaults,
        putFaults := s.putFaults.tail.tail.tail.tail,
        delFaults := s.delFaults,
        trace := Call.put "Detail" a3 :: Call.put "Date" a2 :: Call.put "Name" a1 ::
                 Call.put "Id" a0 :: s.trace }) := by
  obtain ⟨h0, h1, h2, h3⟩ := writesOk_four s hw
  simp only [Init]
  simp only [List.length_cons, List.length_nil]
  simp
  rw [PutState_ok s _ _ h0]
  simp [PutState_ok, h1, h2, h3]

/-- C4: for an argument list of exactly 8 strings and succeeding writes, `Init`
returns no payload and no error; afterwards `Id`, `Name`, `Date`, `Detail` hold
arguments 0, 1, 2, 3 verbatim; and any other 8-argument list with the same
first four arguments gives the same result, so arguments 4 to 7 have no
influence. -/
theorem Init_stores_fields (s : Stub) (f : String) (args : List String)
    (h : args.length = 8) (hw : s.writesOk 4) :
    (Init s f args).1 = (none, none) ∧
    (Init s f args).2.ledger "Id" = some args[0] ∧
    (Init s f args).2.ledger "Name" = some args[1] ∧
    (Init s f args).2.ledger "Date" = some args[2] ∧
    (Init s f args).2.ledger "Detail" = some args[3] ∧
    (∀ args2 : List String, args2.length = 8 → args2.take 4 = args.take 4 →
      Init s f args2 = Init s f args) := by
  obtain ⟨a0, a1, a2, a3, a4, a5, a6, a7, rfl⟩ := length_eq_eight args h
  refine ⟨?_, ?_, ?_, ?_, ?_, ?_⟩
  · rw [Init_ok s f a0 a1 a2 a3 a4 a5 a6 a7 hw]
  · rw [Init_ok s f a0 a1 a2 a3 a4 a5 a6 a7 hw]
    simp [Ledger.put]
  · rw [Init_ok s f a0 a1 a2 a3 a4 a5 a6 a7 hw]
    simp [Ledger.put]
  · rw [Init_ok s f a0 a1 a2 a3 a4 a5 a6 a7 hw]
    simp [Ledger.put]
  · rw [Init_ok s f a0 a1 a2 a3 a4 a5 a6 a7 hw]
    simp [Ledger.put]
  · intro args2 h2 ht
    obtain ⟨b0, b1, b2, b3, b4, b5, b6, b7, rfl⟩ := length_eq_eight args2 h2
    simp at ht
    obtain ⟨rfl, rfl, rfl, rfl⟩ := ht
    rw [Init_ok s f b0 b1 b2 b3 b4 b5 b6 b7 hw, Init_ok s f b0 b1 b2 b3 a4 a5 a6 a7 hw]


/-- C4 at the scenario of the specification. -/
theorem Init_stores_fields_witness :
    (["id1", "name1", "2024-01-01", "detail1", "x", "x", "x", "x"].length = 8 ∧
      (Stub.fresh Ledger.empty).writesOk 4) ∧
    ((Init (Stub.fresh Ledger.empty) "init"
        ["id1", "name1", "2024-01-01", "detail1", "x", "x", "x", "x"]).1 = (none, none) ∧
      (Init (Stub.fresh Ledger.empty) "init"
        ["id1", "name1", "2024-01-01", "detail1", "x", "x", "x", "x"]).2.ledger "Id"
          = some "id1" ∧
      (Init (Stub.fresh Ledger.empty) "init"
        ["id1", "name1", "2024-01-01", "detail1", "x", "x", "x", "x"]).2.ledger "Name"
          = some "name1" ∧
      (Init (Stub.fresh Ledger.empty) "init"
        ["id1", "name1", "2024-01-01", "detail1", "x", "x", "x", "x"]).2.ledger "Date"
          = some "2024-01-01" ∧
      (Init (Stub.fresh Ledger.empty) "init"
        ["id1", "name1", "2024-01-01", "detail1", "x", "x", "x", "x"]).2.ledger "Detail"
          = some "detail1") :=
  have h := Init_stores_fields (Stub.fresh Ledger.empty) "init"
    ["id1", "name1", "2024-01-01", "detail1", "x", "x", "x", "x"] (by decide) (by decide)
  ⟨by decide, h.1, h.2.1, h.2.2.1, h.2.2.2.1, h.2.2.2.2.1⟩

/-- C5: with an argument list whose length is not 8, `Init` fails with
"Incorrect number of arguments. Expecting 8" and hands back the stub as it
received it: no write was made, the ledger is unchanged. -/
theorem Init_argument_count (s : Stub) (f : String) (args : List String)
    (h : args.length ≠ 8) :
    Init s f args = ((none, some "Incorrect number of arguments. Expecting 8"), s) := by
  simp [Init, h]

/-- C5 at a concrete input: four arguments. -/
theorem Init_argument_count_witness :
    ["id1", "name1", "2024-01-01", "detail1"].length ≠ 8 ∧
    Init (Stub.fresh ledgerAB) "init" ["id1", "name1", "2024-01-01", "detail1"]
      = ((none, some "Incorrect number of arguments. Expecting 8"), Stub.fresh ledgerAB) :=
  ⟨by decide,
   Init_argument_count (Stub.fresh ledgerAB) "init" ["id1", "name1", "2024-01-01", "detail1"]
     (by decide)⟩

theorem Init_fail_Id (s : Stub) (f a0 a1 a2 a3 a4 a5 a6 a7 : String) (e : Error)
    (hfail : nextFault s.putFaults = some e) :
    Init s f [a0, a1, a2, a3, a4, a5, a6, a7] = ((none, some " Id: ERROR! "),
      { ledger := s.ledger,
        getFaults := s.getFaults,
        putFaults := s.putFaults.tail,
        delFaults := s.delFaults,
        trace := Call.put "Id" a0 :: s.trace }) := by
  simp only [Init]
  simp only [List.length_cons, List.length_nil]
  simp
  rw [PutState_err s _ _ e hfail]

theorem Init_fail_Name (s : Stub) (f a0 a1 a2 a3 a4 a5 a6 a7 : String) (e : Error)
    (h0 : nextFault s.putFaults = none)
    (hfail : nextFault s.putFaults.tail = some e) :
    Init s f [a0, a1, a2, a3, a4, a5, a6, a7] = ((none, some " Name: ERROR! "),
      { ledger := s.ledger.put "Id" a0,
        getFaults := s.getFaults,
        putFaults := s.putFaults.tail.tail,
        delFaults := s.delFaults,
        trace := Call.put "Name" a1 :: Call.put "Id" a0 :: s.trace }) := by
  simp only [Init]
  simp only [List.length_cons, List.length_nil]
  simp
  rw [PutState_ok s _ _ h0]
  simp [PutState_err _ _ _ e, hfail]

theorem Init_fail_Date (s : Stub) (f a0 a1 a2 a3 a4 a5 a6 a7 : String) (e : Error)
    (h0 : nextFault s.putFaults = none) (h1 : nextFault s.putFaults.tail = none)
    (hfail : nextFault s.putFaults.tail.tail = some e) :
    Init s f [a0, a1, a2, a3, a4, a5, a6, a7] = ((none, some " Date: ERROR! "),
      { ledger := (s.ledger.put "Id" a0).put "Name" a1,
        getFaults := s.getFaults,
        putFaults := s.putFaults.tail.tail.tail,
        delFaults := s.delFaults,
        trace := Call.put "Date" a2 :: Call.put "Name" a1 :: Call.put "Id" a0 :: s.trace }) := by
  simp only [Init]
  simp only [List.length_cons, List.length_nil]
  simp
  rw [PutState_ok s _ _ h0]
  simp [PutState_ok, PutState_err _ _ _ e, hfail, h1]

theorem Init_fail_Detail (s : Stub) (f a0 a1 a2 a3 a4 a5 a6 a7 : String) (e : Error)
    (h0 : nextFault s.putFaults = none) (h1 : nextFault s.putFaults.tail = none)
    (h2 : nextFault s.putFaults.tail.tail = none)
    (hfail : nextFault s.putFaults.tail.tail.tail = some e) :
    Init s f [a0, a1, a2, a3, a4, a5, a6, a7] = ((none, some " Detail: ERROR! "),
      { ledger := ((s.ledger.put "Id" a0).put "Name" a1).put "Date" a2,
        getFaults := s.getFaults,
        putFaults := s.putFaults.tail.tail.tail.tail,
        delFaults := s.delFaults,
        trace := Call.put "Detail" a3 :: Call.put "Date" a2 :: Call.put "Name" a1 ::
                 Call.put "Id" a0 :: s.trace }) := by
  simp only [Init]
  simp only [List.length_cons, List.length_nil]
  simp
  rw [PutState_ok s _ _ h0]
  simp [PutState_ok, PutState_err _ _ _ e, hfail, h1, h2]

/-- C6: in an 8-argument `Init` call whose writes number `0` to `k - 1` succeed
and whose write number `k` (`k < 4`, order `Id`, `Name`, `Date`, `Detail`)
fails, `Init` returns the error that names field `k`; the `PutState` calls made
are exactly those of fields `0` to `k`, so it stops at the failure; the fields
before `k` hold their arguments, and the fields after `k` keep the value they
had before the call. -/
theorem Init_write_failure (s : Stub) (f : String) (args : List String) (k : Nat) (e : Error)
    (h : args.length = 8) (hk : k < 4)
    (hok : s.writesOk k) (hfail : s.writeFault k = some e) :
    (Init s f args).1 = (none, some (" " ++ fieldKey k ++ ": ERROR! ")) ∧
    (Init s f args).2.trace
      = ((List.range (k + 1)).map (fun i => Call.put (fieldKey i) (args.getD i ""))).reverse
          ++ s.trace ∧
    (∀ i, i < k → (Init s f args).2.ledger (fieldKey i) = some (args.getD i "")) ∧
    (∀ i, k < i → i < 4 → (Init s f args).2.ledger (fieldKey i) = s.ledger (fieldKey i)) := by
  obtain ⟨a0, a1, a2, a3, a4, a5, a6, a7, rfl⟩ := length_eq_eight args h
  have hk4 : k = 0 ∨ k = 1 ∨ k = 2 ∨ k = 3 := by omega
  rcases hk4 with rfl | rfl | rfl | rfl
  · simp only [Stub.writeFault, List.drop_zero] at hfail
    rw [Init_fail_Id s f a0 a1 a2 a3 a4 a5 a6 a7 e hfail]
    refine ⟨by rw [show " " ++ fieldKey 0 ++ ": ERROR! " = " Id: ERROR! " by decide], by simp [List.range_succ, fieldKey], ?_, ?_⟩
    · intro i hi
      omega
    · intro i h1 h2
      rfl
  · have h0 := hok 0 (by omega)
    simp only [Stub.writeFault, List.drop_zero, List.drop_one] at hfail h0
    rw [Init_fail_Name s f a0 a1 a2 a3 a4 a5 a6 a7 e h0 hfail]
    refine ⟨by rw [show " " ++ fieldKey 1 ++ ": ERROR! " = " Name: ERROR! " by decide], by simp [List.range_succ, fieldKey], ?_, ?_⟩
    · intro i hi
      obtain rfl : i = 0 := by omega
      simp [fieldKey, Ledger.put]
    · intro i h1 h2
      have hi : i = 2 ∨ i = 3 := by omega
      rcases hi with rfl | rfl <;> simp [fieldKey, Ledger.put]
  · have h0 := hok 0 (by omega)
    have h1 := hok 1 (by omega)
    simp only [Stub.writeFault, List.drop_zero, List.drop_one, drop_two_eq] at hfail h0 h1
    rw [Init_fail_Date s f a0 a1 a2 a3 a4 a5 a6 a7 e h0 h1 hfail]
    refine ⟨by rw [show " " ++ fieldKey 2 ++ ": ERROR! " = " Date: ERROR! " by decide], by simp [List.range_succ, fieldKey], ?_, ?_⟩
    · intro i hi
      have hi2 : i = 0 ∨ i = 1 := by omega
      rcases hi2 with rfl | rfl <;> simp [fieldKey, Ledger.put]
    · intro i h1 h2
      obtain rfl : i = 3 := by omega
      simp [fieldKey, Ledger.put]
  · have h0 := hok 0 (by omega)
    have h1 := hok 1 (by omega)
    have h2 := hok 2 (by omega)
    simp only [Stub.writeFault, List.drop_zero, List.drop_one, drop_two_eq, drop_three_eq]
      at hfail h0 h1 h2
    rw [Init_fail_Detail s f a0 a1 a2 a3 a4 a5 a6 a7 e h0 h1 h2 hfail]
    refine ⟨by rw [show " " ++ fieldKey 3 ++ ": ERROR! " = " Detail: ERROR! " by decide], by simp [List.range_succ, fieldKey], ?_, ?_⟩
    · intro i hi
      have hi2 : i = 0 ∨ i = 1 ∨ i = 2 := by omega
      rcases hi2 with rfl | rfl | rfl <;> simp [fieldKey, Ledger.put]
    · intro i h1 h2
      omega


/-- C6 at a concrete input: the write of `Date` (number 2) is refused. -/
theorem Init_write_failure_witness :
    (argsInit.length = 8 ∧ 2 < 4 ∧ stubThirdWriteFails.writesOk 2 ∧
      stubThirdWriteFails.writeFault 2 = some "write refused") ∧
    ((Init stubThirdWriteFails "init" argsInit).1 = (none, some " Date: ERROR! ") ∧
      (Init stubThirdWriteFails "init" argsInit).2.trace
        = [Call.put "Date" "2024-01-01", Call.put "Name" "name1", Call.put "Id" "id1"] ∧
      (Init stubThirdWriteFails "init" argsInit).2.ledger "Id" = some "id1" ∧
      (Init stubThirdWriteFails "init" argsInit).2.ledger "Name" = some "name1" ∧
      (Init stubThirdWriteFails "init" argsInit).2.ledger "Detail" = none) :=
  have h := Init_write_failure stubThirdWriteFails "init" argsInit 2 "write refused"
    (by decide) (by decide) (by decide) (by decide)
  ⟨by decide, h.1, h.2.1, h.2.2.1 0 (by decide), h.2.2.1 1 (by decide),
    h.2.2.2 3 (by decide) (by decide)⟩

/-! ## The handler `delete` -/

/-- C7: `delete [K]` whose `DelState` call does not fail returns no payload and
no error, whether or not `K` was present; afterwards `K` is absent, a following
`GetState` of `K` that does not fail reports it absent, and every other key
keeps its value. -/
theorem delete_removes_key (s : Stub) (K : String) (hd : s.deleteFault 0 = none) :
    (delete s [K]).1 = (none, none) ∧
    (delete s [K]).2.ledger K = none ∧
    (s.readFault 0 = none → (GetState (delete s [K]).2 K).1 = (none, none)) ∧
    (∀ k, k ≠ K → (delete s [K]).2.ledger k = s.ledger k) := by
  simp only [Stub.deleteFault, Stub.readFault, List.drop_zero] at hd ⊢
  have hD : delete s [K] = ((none, none),
      { s with ledger := s.ledger.del K, delFaults := s.delFaults.tail,
               trace := Call.del K :: s.trace }) := by
    simp only [delete]
    simp only [List.length_cons, List.length_nil]
    simp
    rw [DelState_ok s K hd]
  rw [hD]
  refine ⟨rfl, by simp [Ledger.del], ?_, ?_⟩
  · intro hr
    rw [GetState_ok _ _ (by simpa using hr)]
    simp [Ledger.del]
  · intro k hk
    simp [Ledger.del, hk]

/-- C7 at concrete inputs: `A` is present and gets deleted while `B` keeps
`50`; deleting the absent key `C` succeeds as well. -/
theorem delete_removes_key_witness :
    ((Stub.fresh ledgerAB).deleteFault 0 = none ∧ (Stub.fresh ledgerAB).readFault 0 = none ∧
      ledgerAB "A" = some "100" ∧ ledgerAB "C" = none ∧
      (delete (Stub.fresh ledgerAB) ["C"]).1 = (none, none)) ∧
    ((delete (Stub.fresh ledgerAB) ["A"]).1 = (none, none) ∧
      (delete (Stub.fresh ledgerAB) ["A"]).2.ledger "A" = none ∧
      (GetState (delete (Stub.fresh ledgerAB) ["A"]).2 "A").1 = (none, none) ∧
      (delete (Stub.fresh ledgerAB) ["A"]).2.ledger "B" = some "50") :=
  have h := delete_removes_key (Stub.fresh ledgerAB) "A" (by decide)
  ⟨by decide, h.1, h.2.1, h.2.2.1 (by decide), h.2.2.2 "B" (by decide)⟩

/-! ## The dispatcher `Invoke` -/

/-- C8: for an operation name other than "init", "invoke" and "delete", and
for every argument list and stub, `Invoke` fails with "Received unknown
function invocation" and hands back the stub as it received it. -/
theorem Invoke_unknown_function (s : Stub) (function : String) (args : List String)
    (h1 : function ≠ "init") (h2 : function ≠ "invoke") (h3 : function ≠ "delete") :
    Invoke s function args = ((none, some "Received unknown function invocation"), s) := by
  simp [Invoke, h1, h2, h3]

/-- C8 at concrete inputs: the name "transfer", with no argument and with four. -/
theorem Invoke_unknown_function_witness :
    ("transfer" ≠ "init" ∧ "transfer" ≠ "invoke" ∧ "transfer" ≠ "delete") ∧
    Invoke (Stub.fresh ledgerAB) "transfer" ["A", "B", "10", "extra"]
      = ((none, some "Received unknown function invocation"), Stub.fresh ledgerAB) :=
  ⟨by decide,
   Invoke_unknown_function (Stub.fresh ledgerAB) "transfer" ["A", "B", "10", "extra"]
     (by decide) (by decide) (by decide)⟩

/-- C9 (as amended): the error that `Invoke` returns for an unrecognized name
does not depend on the name: any two unrecognized names, with any argument
lists and stubs, receive the same response, whose error is the fixed text
"Received unknown function invocation". -/
theorem Invoke_unknown_error_fixed (s s2 : Stub) (f g : String) (args args2 : List String)
    (hf1 : f ≠ "init") (hf2 : f ≠ "invoke") (hf3 : f ≠ "delete")
    (hg1 : g ≠ "init") (hg2 : g ≠ "invoke") (hg3 : g ≠ "delete") :
    (Invoke s f args).1 = (Invoke s2 g args2).1 ∧
    (Invoke s f args).1.2 = some "Received unknown function invocation" := by
  simp [Invoke, hf1, hf2, hf3, hg1, hg2, hg3]

/-- C9 at concrete inputs: the names "transfer" and "query". -/
theorem Invoke_unknown_error_fixed_witness :
    ("transfer" ≠ "query") ∧
    ((Invoke (Stub.fresh ledgerAB) "transfer" ["A", "B", "10"]).1
        = (Invoke (Stub.fresh Ledger.empty) "query" ["A"]).1 ∧
      (Invoke (Stub.fresh ledgerAB) "transfer" ["A", "B", "10"]).1.2
        = some "Received unknown function invocation") :=
  ⟨by decide,
   Invoke_unknown_error_fixed (Stub.fresh ledgerAB) (Stub.fresh Ledger.empty) "transfer" "query"
     ["A", "B", "10"] ["A"] (by decide) (by decide) (by decide) (by decide) (by decide)
     (by decide)⟩

/-- C9 as stated fails: "transfer" and "query" are two different unrecognized
names, and `Invoke` returns the very same error for both, so the error does
not carry the submitted name. -/
theorem Invoke_unknown_error_counterexample :
    "transfer" ≠ "query" ∧
    (Invoke (Stub.fresh Ledger.empty) "transfer" []).1.2
      = some "Received unknown function invocation" ∧
    (Invoke (Stub.fresh Ledger.empty) "query" []).1.2
      = some "Received unknown function invocation" ∧
    (Invoke (Stub.fresh Ledger.empty) "transfer" []).1.2
      = (Invoke (Stub.fresh Ledger.empty) "query" []).1.2 := by
  decide

/-- C10: the dispatcher hands each recognized name to its handler and returns
the handler's payload, error and resulting stub unmodified. -/
theorem Invoke_routes (s : Stub) (args : List String) :
    Invoke s "init" args = Init s "init" args ∧
    Invoke s "invoke" args = invoke s args ∧
    Invoke s "delete" args = delete s args := by
  refine ⟨?_, ?_, ?_⟩
  · simp [Invoke]
  · simp [Invoke]
  · simp [Invoke]


/-- C11: the entry points `Invoke` and `Run` are extensionally equal: for every
stub (ledger, failure schedules, trace), operation name and argument list they
return the same payload, the same error and the same resulting stub. -/
theorem Invoke_eq_Run (s : Stub) (function : String) (args : List String) :
    Invoke s function args = Run s function args := by
  unfold Invoke Run
  rfl

/-! ## The read path `Query` -/

/-- C12: with a name other than "query", `Query` fails with the
invalid-query-function error; with the name "query" and one key argument it
returns no payload and no error; in both cases the stub comes back as it was
received (no accessor call, no change), and the response is the same for any
two stubs, so it does not depend on the ledger contents. -/
theorem Query_ignores_ledger (s s2 : Stub) (function key : String) (args : List String) :
    (function ≠ "query" →
      Query s function args
        = some ((none, some "1113 Invalid query function name. Expecting \x22query\x22"), s)) ∧
    Query s "query" [key] = some ((none, none), s) ∧
    (Query s function args).map Prod.fst = (Query s2 function args).map Prod.fst := by
  refine ⟨?_, ?_, ?_⟩
  · intro h
    simp [Query, h]
  · simp [Query]
  · unfold Query
    by_cases h : function = "query"
    · subst h
      cases args <;> simp
    · simp [h]

/-- C12 at concrete inputs: the name "read" is refused; the name "query" with
the present key `A` and with the absent key `C` gives the empty response. -/
theorem Query_ignores_ledger_witness :
    ("read" ≠ "query" ∧ ledgerAB "A" = some "100" ∧ ledgerAB "C" = none) ∧
    (Query (Stub.fresh ledgerAB) "read" ["A"]
        = some ((none, some "1113 Invalid query function name. Expecting \x22query\x22"),
            Stub.fresh ledgerAB) ∧
      Query (Stub.fresh ledgerAB) "query" ["A"] = some ((none, none), Stub.fresh ledgerAB) ∧
      Query (Stub.fresh ledgerAB) "query" ["C"] = some ((none, none), Stub.fresh ledgerAB)) :=
  ⟨by decide,
   (Query_ignores_ledger (Stub.fresh ledgerAB) (Stub.fresh Ledger.empty) "read" "A" ["A"]).1
     (by decide),
   (Query_ignores_ledger (Stub.fresh ledgerAB) (Stub.fresh Ledger.empty) "read" "A" ["A"]).2.1,
   (Query_ignores_ledger (Stub.fresh ledgerAB) (Stub.fresh Ledger.empty) "read" "C" ["A"]).2.1⟩

/-- C20: `Query` indexes `args[0]` without a length check, but only after the
name check: with a name other than "query" it returns normally for every
argument list, and with the name "query" it returns normally exactly when the
argument list is not empty. -/
theorem Query_returns_iff (s : Stub) (function : String) (args : List String) :
    (function ≠ "query" → (Query s function args).isSome = true) ∧
    ((Query s "query" args).isSome = true ↔ args ≠ []) := by
  refine ⟨?_, ?_⟩
  · intro h
    simp [Query, h]
  · cases args <;> simp [Query]

/-- C20 at concrete inputs: the empty argument list stops `Query "query"` and
does not stop `Query "read"`. -/
theorem Query_returns_iff_witness :
    ("read" ≠ "query" ∧ (Query (Stub.fresh ledgerAB) "query" []).isSome = false) ∧
    (Query (Stub.fresh ledgerAB) "read" []).isSome = true ∧
    (Query (Stub.fresh ledgerAB) "query" ["A"]).isSome = true :=
  ⟨by decide, (Query_returns_iff (Stub.fresh ledgerAB) "read" []).1 (by decide),
    (Query_returns_iff (Stub.fresh ledgerAB) "read" ["A"]).2.2 (by decide)⟩


/-! ## The footprint of `invoke` -/

theorem length_eq_three (args : List String) (h : args.length = 3) :
    ∃ A B X, args = [A, B, X] := by
  rcases args with _ | ⟨A, _ | ⟨B, _ | ⟨X, _ | ⟨Y, l⟩⟩⟩⟩ <;> simp at h
  exact ⟨A, B, X, rfl⟩

theorem GetState_err (s : Stub) (key : String) (e : Error)
    (h : nextFault s.getFaults = some e) :
    GetState s key = ((none, some e),
      { s with getFaults := s.getFaults.tail, trace := Call.get key :: s.trace }) := by
  simp [GetState, h]

theorem invoke_first_read_fails (s : Stub) (A B X : String) (e : Error)
    (h1 : nextFault s.getFaults = some e) :
    invoke s [A, B, X] = ((none, some "Failed to get state"),
      { s with getFaults := s.getFaults.tail, trace := Call.get A :: s.trace }) := by
  simp only [invoke]
  simp only [List.length_cons, List.length_nil]
  simp
  rw [GetState_err s A e h1]

theorem invoke_source_absent (s : Stub) (A B X : String)
    (h1 : nextFault s.getFaults = none) (hA : s.ledger A = none) :
    invoke s [A, B, X] = ((none, some "Entity not found"),
      { s with getFaults := s.getFaults.tail, trace := Call.get A :: s.trace }) := by
  simp only [invoke]
  simp only [List.length_cons, List.length_nil]
  simp
  rw [GetState_ok s A h1]
  simp [hA]

theorem invoke_second_read_fails (s : Stub) (A B X va : String) (e : Error)
    (h1 : nextFault s.getFaults = none) (hA : s.ledger A = some va)
    (h2 : nextFault s.getFaults.tail = some e) :
    invoke s [A, B, X] = ((none, some "Failed to get state"),
      { s with getFaults := s.getFaults.tail.tail,
               trace := Call.get B :: Call.get A :: s.trace }) := by
  simp only [invoke]
  simp only [List.length_cons, List.length_nil]
  simp
  rw [GetState_ok s A h1]
  simp only [hA]
  simp [GetState_err _ _ e, h2]

theorem invoke_destination_absent (s : Stub) (A B X va : String)
    (h1 : nextFault s.getFaults = none) (hA : s.ledger A = some va)
    (h2 : nextFault s.getFaults.tail = none) (hB : s.ledger B = none) :
    invoke s [A, B, X] = ((none, some "Entity not found"),
      { s with getFaults := s.getFaults.tail.tail,
               trace := Call.get B :: Call.get A :: s.trace }) := by
  simp only [invoke]
  simp only [List.length_cons, List.length_nil]
  simp
  rw [GetState_ok s A h1]
  simp only [hA]
  simp [GetState_ok, h2, hB]

theorem invoke_first_write_fails (s : Stub) (A B X va vb : String) (e : Error)
    (h1 : nextFault s.getFaults = none) (hA : s.ledger A = some va)
    (h2 : nextFault s.getFaults.tail = none) (hB : s.ledger B = some vb)
    (h3 : nextFault s.putFaults = some e) :
    invoke s [A, B, X] = ((none, some e),
      { s with getFaults := s.getFaults.tail.tail,
               putFaults := s.putFaults.tail,
               trace := Call.put A (Itoa (wrapInt ((Atoi va).1 - (Atoi X).1))) ::
                        Call.get B :: Call.get A :: s.trace }) := by
  simp only [invoke]
  simp only [List.length_cons, List.length_nil]
  simp
  rw [GetState_ok s A h1]
  simp only [hA]
  simp [GetState_ok, PutState_err _ _ _ e, h2, hB, h3, subInt]

theorem invoke_second_write_fails (s : Stub) (A B X va vb : String) (e : Error)
    (h1 : nextFault s.getFaults = none) (hA : s.ledger A = some va)
    (h2 : nextFault s.getFaults.tail = none) (hB : s.ledger B = some vb)
    (h3 : nextFault s.putFaults = none) (h4 : nextFault s.putFaults.tail = some e) :
    invoke s [A, B, X] = ((none, some e),
      { s with ledger := s.ledger.put A (Itoa (wrapInt ((Atoi va).1 - (Atoi X).1))),
               getFaults := s.getFaults.tail.tail,
               putFaults := s.putFaults.tail.tail,
               trace := Call.put B (Itoa (wrapInt ((Atoi vb).1 + (Atoi X).1 + 2))) ::
                        Call.put A (Itoa (wrapInt ((Atoi va).1 - (Atoi X).1))) ::
                        Call.get B :: Call.get A :: s.trace }) := by
  simp only [invoke]
  simp only [List.length_cons, List.length_nil]
  simp
  rw [GetState_ok s A h1]
  simp only [hA]
  simp [GetState_ok, PutState_ok, PutState_err _ _ _ e, h2, hB, h3, h4, subInt, addInt_one_one]

theorem invoke_all_succeed (s : Stub) (A B X va vb : String)
    (h1 : nextFault s.getFaults = none) (hA : s.ledger A = some va)
    (h2 : nextFault s.getFaults.tail = none) (hB : s.ledger B = some vb)
    (h3 : nextFault s.putFaults = none) (h4 : nextFault s.putFaults.tail = none) :
    invoke s [A, B, X] = ((none, none),
      { s with ledger := (s.ledger.put A (Itoa (wrapInt ((Atoi va).1 - (Atoi X).1)))).put B
                           (Itoa (wrapInt ((Atoi vb).1 + (Atoi X).1 + 2))),
               getFaults := s.getFaults.tail.tail,
               putFaults := s.putFaults.tail.tail,
               trace := Call.put B (Itoa (wrapInt ((Atoi vb).1 + (Atoi X).1 + 2))) ::
                        Call.put A (Itoa (wrapInt ((Atoi va).1 - (Atoi X).1))) ::
                        Call.get B :: Call.get A :: s.trace }) := by
  simp only [invoke]
  simp only [List.length_cons, List.length_nil]
  simp
  rw [GetState_ok s A h1]
  simp only [hA]
  simp [GetState_ok, PutState_ok, h2, hB, h3, h4, subInt, addInt_one_one]

/-- Every run of `invoke [A, B, X]` ends in one of three ways: with an error and
the ledger untouched; with an error after the write of `A` alone, both keys
being present; or without error after the writes of `A` and `B`, both keys
being present. -/
theorem invoke_ledger_cases (s : Stub) (A B X : String) :
    ((invoke s [A, B, X]).2.ledger = s.ledger ∧ (invoke s [A, B, X]).1.2 ≠ none) ∨
    (∃ v, s.ledger A ≠ none ∧ s.ledger B ≠ none ∧
      (invoke s [A, B, X]).2.ledger = s.ledger.put A v ∧ (invoke s [A, B, X]).1.2 ≠ none) ∨
    (∃ v w, s.ledger A ≠ none ∧ s.ledger B ≠ none ∧
      (invoke s [A, B, X]).2.ledger = (s.ledger.put A v).put B w ∧
      (invoke s [A, B, X]).1 = (none, none)) := by
  cases h1 : nextFault s.getFaults with
  | some e =>
    rw [invoke_first_read_fails s A B X e h1]
    exact Or.inl ⟨rfl, by simp⟩
  | none =>
    cases hA : s.ledger A with
    | none =>
      rw [invoke_source_absent s A B X h1 hA]
      exact Or.inl ⟨rfl, by simp⟩
    | some va =>
      cases h2 : nextFault s.getFaults.tail with
      | some e =>
        rw [invoke_second_read_fails s A B X va e h1 hA h2]
        exact Or.inl ⟨rfl, by simp⟩
      | none =>
        cases hB : s.ledger B with
        | none =>
          rw [invoke_destination_absent s A B X va h1 hA h2 hB]
          exact Or.inl ⟨rfl, by simp⟩
        | some vb =>
          cases h3 : nextFault s.putFaults with
          | some e =>
            rw [invoke_first_write_fails s A B X va vb e h1 hA h2 hB h3]
            exact Or.inl ⟨rfl, by simp⟩
          | none =>
            cases h4 : nextFault s.putFaults.tail with
            | some e =>
              rw [invoke_second_write_fails s A B X va vb e h1 hA h2 hB h3 h4]
              exact Or.inr (Or.inl ⟨_, by simp, by simp, rfl, by simp⟩)
            | none =>
              rw [invoke_all_succeed s A B X va vb h1 hA h2 hB h3 h4]
              exact Or.inr (Or.inr ⟨_, _, by simp, by simp, rfl, rfl⟩)


/-- C14: `invoke` never creates a ledger key: whatever the ledger, the argument
list and the outcome, a key is present after the call exactly when it was
present before; and a call that returns no error had three arguments whose
first two, the operand keys, were present before the call. -/
theorem invoke_creates_no_key (s : Stub) (args : List String) :
    (∀ k, ((invoke s args).2.ledger k).isSome = (s.ledger k).isSome) ∧
    ((invoke s args).1.2 = none →
      ∃ A B X, args = [A, B, X] ∧ (s.ledger A).isSome = true ∧ (s.ledger B).isSome = true) := by
  by_cases hlen : args.length = 3
  · obtain ⟨A, B, X, rfl⟩ := length_eq_three args hlen
    rcases invoke_ledger_cases s A B X with ⟨hl, he⟩ | ⟨v, hA, hB, hl, he⟩ | ⟨v, w, hA, hB, hl, he⟩
    · refine ⟨fun k => by rw [hl], fun h => absurd h he⟩
    · refine ⟨fun k => ?_, fun h => absurd h he⟩
      rw [hl]
      by_cases hk : k = A
      · subst hk
        simp [Ledger.put, Option.isSome_iff_ne_none.mpr hA]
      · simp [Ledger.put, hk]
    · refine ⟨fun k => ?_, fun _ => ⟨A, B, X, rfl, Option.isSome_iff_ne_none.mpr hA,
        Option.isSome_iff_ne_none.mpr hB⟩⟩
      rw [hl]
      by_cases hkB : k = B
      · subst hkB
        simp [Ledger.put, Option.isSome_iff_ne_none.mpr hB]
      · by_cases hkA : k = A
        · subst hkA
          simp [Ledger.put, hkB, Option.isSome_iff_ne_none.mpr hA]
        · simp [Ledger.put, hkA, hkB]
  · have hne : args.length ≠ 3 := hlen
    have hI : invoke s args = ((none, some "Incorrect number of arguments. Expecting 3"), s) := by
      simp [invoke, hne]
    rw [hI]
    exact ⟨fun k => rfl, fun h => by simp at h⟩

/-- C14 at a concrete input: the transfer scenario succeeds, both operand keys
were present, and the absent key `C` stays absent. -/
theorem invoke_creates_no_key_witness :
    ((invoke (Stub.fresh ledgerAB) ["A", "B", "10"]).1.2 = none ∧ ledgerAB "C" = none) ∧
    (((invoke (Stub.fresh ledgerAB) ["A", "B", "10"]).2.ledger "C").isSome
        = ((Stub.fresh ledgerAB).ledger "C").isSome ∧
      ∃ A B X, ["A", "B", "10"] = [A, B, X] ∧ ((Stub.fresh ledgerAB).ledger A).isSome = true ∧
        ((Stub.fresh ledgerAB).ledger B).isSome = true) :=
  ⟨by decide,
   (invoke_creates_no_key (Stub.fresh ledgerAB) ["A", "B", "10"]).1 "C",
   (invoke_creates_no_key (Stub.fresh ledgerAB) ["A", "B", "10"]).2 (by decide)⟩

/-- C19: `invoke` changes only its two operand keys: whatever the ledger, the
argument list and the outcome, a key that is neither `args[0]` nor `args[1]`
has after the call the presence and the value it had before. -/
theorem invoke_frame (s : Stub) (args : List String) (k : String)
    (h0 : args[0]? ≠ some k) (h1 : args[1]? ≠ some k) :
    (invoke s args).2.ledger k = s.ledger k := by
  by_cases hlen : args.length = 3
  · obtain ⟨A, B, X, rfl⟩ := length_eq_three args hlen
    have hkA : k ≠ A := by
      intro h
      apply h0
      simp [h]
    have hkB : k ≠ B := by
      intro h
      apply h1
      simp [h]
    rcases invoke_ledger_cases s A B X with ⟨hl, _⟩ | ⟨v, _, _, hl, _⟩ | ⟨v, w, _, _, hl, _⟩
    · rw [hl]
    · rw [hl]
      simp [Ledger.put, hkA]
    · rw [hl]
      simp [Ledger.put, hkA, hkB]
  · have hne : args.length ≠ 3 := hlen
    have hI : invoke s args = ((none, some "Incorrect number of arguments. Expecting 3"), s) := by
      simp [invoke, hne]
    rw [hI]

/-- C19 at concrete inputs: a transfer between `A` and `B` leaves `Id` as it was. -/
theorem invoke_frame_witness :
    (["A", "B", "10"][0]? ≠ some "Id" ∧ ["A", "B", "10"][1]? ≠ some "Id" ∧
      (invoke (Stub.fresh (ledgerAB.put "Id" "id1")) ["A", "B", "10"]).1 = (none, none)) ∧
    (invoke (Stub.fresh (ledgerAB.put "Id" "id1")) ["A", "B", "10"]).2.ledger "Id"
      = (Stub.fresh (ledgerAB.put "Id" "id1")).ledger "Id" :=
  ⟨by decide,
   invoke_frame (Stub.fresh (ledgerAB.put "Id" "id1")) ["A", "B", "10"] "Id"
     (by decide) (by decide)⟩


/-! ## What `Atoi` returns -/

theorem wrapInt_inRange (z : Int) : minInt ≤ wrapInt z ∧ wrapInt z ≤ maxInt := by
  unfold minInt maxInt wrapInt
  omega

/-- The four shapes of a result of `Atoi`: a malformed text gives `0`, an
overflowing one a bound of `int`, both with an error; otherwise a value of the
`int` range and no error. -/
theorem Atoi_cases (s : String) :
    Atoi s = (0, some NumError.invalidText) ∨
    Atoi s = (maxInt, some NumError.outOfRange) ∨
    Atoi s = (minInt, some NumError.outOfRange) ∨
    ∃ z, Atoi s = (wrapInt z, none) := by
  unfold Atoi ParseInt
  cases hs : s.data with
  | nil => exact Or.inl rfl
  | cons c cs =>
    simp only []
    rcases hP : ParseUint (if c = '+' ∨ c = '-' then cs else c :: cs) with ⟨un, _ | e⟩
    · simp only []
      split_ifs
      · exact Or.inr (Or.inl rfl)
      · exact Or.inr (Or.inr (Or.inl rfl))
      · exact Or.inr (Or.inr (Or.inr ⟨_, rfl⟩))
      · exact Or.inr (Or.inr (Or.inr ⟨_, (congrArg (fun z => (z, none))
          (wrapInt_of_inRange _ (wrapInt_inRange _))).symm⟩))
    · cases e with
      | invalidText => exact Or.inl rfl
      | outOfRange =>
        simp only []
        split_ifs
        · exact Or.inr (Or.inl rfl)
        · exact Or.inr (Or.inr (Or.inl rfl))
        · exact Or.inr (Or.inr (Or.inr ⟨_, rfl⟩))
        · exact Or.inr (Or.inr (Or.inr ⟨_, (congrArg (fun z => (z, none))
            (wrapInt_of_inRange _ (wrapInt_inRange _))).symm⟩))

theorem Atoi_inRange (s : String) : minInt ≤ (Atoi s).1 ∧ (Atoi s).1 ≤ maxInt := by
  rcases Atoi_cases s with h | h | h | ⟨z, h⟩ <;> rw [h]
  · decide
  · decide
  · decide
  · exact wrapInt_inRange z

theorem Atoi_invalidText (s : String) (h : (Atoi s).2 = some NumError.invalidText) :
    (Atoi s).1 = 0 := by
  rcases Atoi_cases s with h2 | h2 | h2 | ⟨z, h2⟩ <;> rw [h2] at h ⊢ <;> simp at h ⊢

theorem Atoi_outOfRange (s : String) (h : (Atoi s).2 = some NumError.outOfRange) :
    (Atoi s).1 = maxInt ∨ (Atoi s).1 = minInt := by
  rcases Atoi_cases s with h2 | h2 | h2 | ⟨z, h2⟩ <;> rw [h2] at h ⊢ <;> simp at h ⊢

theorem Itoa_injective (m n : Int) (hm : minInt ≤ m ∧ m ≤ maxInt) (hn : minInt ≤ n ∧ n ≤ maxInt)
    (h : Itoa m = Itoa n) : m = n := by
  have h1 := Atoi_Itoa m hm
  have h2 := Atoi_Itoa n hn
  rw [h, h2] at h1
  exact (congrArg Prod.fst h1).symm


/-! ## Failures and leniency of `invoke` -/

/-- C13 (as amended): when both reads of `invoke [A, B, X]` succeed with present
values, the write of the source succeeds and the write of the destination fails
with error `e`, `invoke` returns exactly `e`; the source holds the text of
`oldA - X`, computed in wrap-around `int` arithmetic on the values that `Atoi`
returns (the exact difference whenever it lies in the `int` range); and the
destination, when it is another key than the source, still holds its old
value. -/
theorem invoke_second_write_failure (s : Stub) (A B X va vb : String) (e : Error)
    (hA : s.ledger A = some va) (hB : s.ledger B = some vb)
    (hr : s.readsOk 2) (hw0 : s.writeFault 0 = none) (hw1 : s.writeFault 1 = some e) :
    (invoke s [A, B, X]).1 = (none, some e) ∧
    (invoke s [A, B, X]).2.ledger A = some (Itoa (wrapInt ((Atoi va).1 - (Atoi X).1))) ∧
    (minInt ≤ (Atoi va).1 - (Atoi X).1 ∧ (Atoi va).1 - (Atoi X).1 ≤ maxInt →
      (invoke s [A, B, X]).2.ledger A = some (Itoa ((Atoi va).1 - (Atoi X).1))) ∧
    (A ≠ B → (invoke s [A, B, X]).2.ledger B = some vb) := by
  obtain ⟨h1, h2⟩ := readsOk_two s hr
  simp only [Stub.writeFault, List.drop_zero, List.drop_one] at hw0 hw1
  rw [invoke_second_write_fails s A B X va vb e h1 hA h2 hB hw0 hw1]
  have hA2 : (s.ledger.put A (Itoa (wrapInt ((Atoi va).1 - (Atoi X).1))) : Ledger) A
      = some (Itoa (wrapInt ((Atoi va).1 - (Atoi X).1))) := by
    simp [Ledger.put]
  refine ⟨rfl, hA2, ?_, ?_⟩
  · intro h
    exact hA2.trans (by rw [wrapInt_of_inRange _ h])
  · intro hAB
    have hBA : B ≠ A := fun h => hAB h.symm
    simp [Ledger.put, hBA, hB]

/-- C13 at concrete inputs: the transfer scenario with the second write refused
leaves `A = "90"` and `B = "50"`. -/
theorem invoke_second_write_failure_witness :
    (ledgerAB "A" = some "100" ∧ ledgerAB "B" = some "50" ∧ "A" ≠ "B" ∧
      Itoa (wrapInt ((Atoi "100").1 - (Atoi "10").1)) = "90") ∧
    ((invoke (stubSecondWriteFails ledgerAB) ["A", "B", "10"]).1 = (none, some "write refused") ∧
      (invoke (stubSecondWriteFails ledgerAB) ["A", "B", "10"]).2.ledger "A"
        = some (Itoa (wrapInt ((Atoi "100").1 - (Atoi "10").1))) ∧
      (invoke (stubSecondWriteFails ledgerAB) ["A", "B", "10"]).2.ledger "B" = some "50") :=
  have h := invoke_second_write_failure (stubSecondWriteFails ledgerAB) "A" "B" "10" "100" "50"
    "write refused" (by decide) (by decide) (by decide) (by decide) (by decide)
  ⟨by decide, h.1, h.2.1, h.2.2.2 (by decide)⟩

/-- C13 as stated fails.  With source and destination the same key `A = "100"`,
`X = "10"` and the second write refused, every premise holds, yet the
destination `A` holds `"90"` and no longer its old value `"100"`.  With `A` at
the smallest `int` and `X = "1"` the source holds the text of the largest
`int`, not that of `oldA - X`. -/
theorem invoke_second_write_failure_counterexample :
    (ledgerAB "A" = some "100" ∧
      (stubSecondWriteFails ledgerAB).readsOk 2 ∧
      (stubSecondWriteFails ledgerAB).writeFault 0 = none ∧
      (stubSecondWriteFails ledgerAB).writeFault 1 = some "write refused" ∧
      (invoke (stubSecondWriteFails ledgerAB) ["A", "A", "10"]).1 = (none, some "write refused") ∧
      (invoke (stubSecondWriteFails ledgerAB) ["A", "A", "10"]).2.ledger "A" = some "90" ∧
      (invoke (stubSecondWriteFails ledgerAB) ["A", "A", "10"]).2.ledger "A" ≠ ledgerAB "A") ∧
    (ledgerMin "A" = some "-9223372036854775808" ∧
      Atoi "-9223372036854775808" = (-9223372036854775808, none) ∧
      Atoi "1" = (1, none) ∧
      Itoa (-9223372036854775808 - 1) = "-9223372036854775809" ∧
      (invoke (stubSecondWriteFails ledgerMin) ["A", "B", "1"]).1 = (none, some "write refused") ∧
      (invoke (stubSecondWriteFails ledgerMin) ["A", "B", "1"]).2.ledger "A"
        = some "9223372036854775807" ∧
      (invoke (stubSecondWriteFails ledgerMin) ["A", "B", "1"]).2.ledger "A"
        ≠ some (Itoa (-9223372036854775808 - 1))) := by
  decide


/-- C16 (as amended): in a call `invoke [A, B, X]` on present values whose reads
and writes succeed, the call succeeds whatever the stored texts are, and its
two writes are the texts of `oldA - X` and `oldB + X + 2` in wrap-around `int`
arithmetic on the values that `Atoi` returns.  A source (respectively
destination) text that `Atoi` rejects as malformed counts as zero: the source
is written as the text of `0 - X` (respectively the destination as the text of
`0 + X + 2`), exactly when `X` is not the smallest `int` (respectively at most
the largest `int` minus 2).  A text that `Atoi` rejects as out of range counts
as the largest or the smallest `int` instead: the source is written as the text
of that bound minus `X` (respectively the destination as the text of that bound
plus `X + 2`). -/
theorem invoke_malformed_balance (s : Stub) (A B X va vb : String)
    (hA : s.ledger A = some va) (hB : s.ledger B = some vb)
    (hr : s.readsOk 2) (hw : s.writesOk 2) :
    (invoke s [A, B, X]).1 = (none, none) ∧
    (invoke s [A, B, X]).2.trace
      = Call.put B (Itoa (wrapInt ((Atoi vb).1 + (Atoi X).1 + 2))) ::
          Call.put A (Itoa (wrapInt ((Atoi va).1 - (Atoi X).1))) ::
          Call.get B :: Call.get A :: s.trace ∧
    ((Atoi va).2 = some NumError.invalidText →
      (Atoi va).1 = 0 ∧
      Call.put A (Itoa (wrapInt (0 - (Atoi X).1))) ∈ (invoke s [A, B, X]).2.trace ∧
      (minInt < (Atoi X).1 →
        Call.put A (Itoa (0 - (Atoi X).1)) ∈ (invoke s [A, B, X]).2.trace)) ∧
    ((Atoi vb).2 = some NumError.invalidText →
      (Atoi vb).1 = 0 ∧
      Call.put B (Itoa (wrapInt (0 + (Atoi X).1 + 2))) ∈ (invoke s [A, B, X]).2.trace ∧
      (invoke s [A, B, X]).2.ledger B = some (Itoa (wrapInt (0 + (Atoi X).1 + 2))) ∧
      ((Atoi X).1 + 2 ≤ maxInt →
        (invoke s [A, B, X]).2.ledger B = some (Itoa (0 + (Atoi X).1 + 2)))) ∧
    ((Atoi va).2 = some NumError.outOfRange →
      ((Atoi va).1 = maxInt ∧
        Call.put A (Itoa (wrapInt (maxInt - (Atoi X).1))) ∈ (invoke s [A, B, X]).2.trace) ∨
      ((Atoi va).1 = minInt ∧
        Call.put A (Itoa (wrapInt (minInt - (Atoi X).1))) ∈ (invoke s [A, B, X]).2.trace)) ∧
    ((Atoi vb).2 = some NumError.outOfRange →
      ((Atoi vb).1 = maxInt ∧
        Call.put B (Itoa (wrapInt (maxInt + (Atoi X).1 + 2))) ∈ (invoke s [A, B, X]).2.trace ∧
        (invoke s [A, B, X]).2.ledger B = some (Itoa (wrapInt (maxInt + (Atoi X).1 + 2)))) ∨
      ((Atoi vb).1 = minInt ∧
        Call.put B (Itoa (wrapInt (minInt + (Atoi X).1 + 2))) ∈ (invoke s [A, B, X]).2.trace ∧
        (invoke s [A, B, X]).2.ledger B
          = some (Itoa (wrapInt (minInt + (Atoi X).1 + 2))))) := by
  rw [invoke_ok s A B X va vb hA hB hr hw]
  have hx := Atoi_inRange X
  refine ⟨rfl, rfl, ?_, ?_, ?_, ?_⟩
  · intro h
    have h0 := Atoi_invalidText va h
    rw [h0]
    refine ⟨rfl, by simp, ?_⟩
    intro hmin
    have hin : minInt ≤ 0 - (Atoi X).1 ∧ 0 - (Atoi X).1 ≤ maxInt := by
      unfold minInt maxInt at *
      omega
    rw [wrapInt_of_inRange _ hin]
    simp
  · intro h
    have h0 := Atoi_invalidText vb h
    rw [h0]
    refine ⟨rfl, by simp, by simp [Ledger.put], ?_⟩
    intro hmax
    have hin : minInt ≤ 0 + (Atoi X).1 + 2 ∧ 0 + (Atoi X).1 + 2 ≤ maxInt := by
      unfold minInt maxInt at *
      omega
    rw [wrapInt_of_inRange _ hin]
    simp [Ledger.put]
  · intro h
    rcases Atoi_outOfRange va h with h0 | h0
    · rw [h0]
      exact Or.inl ⟨rfl, by simp⟩
    · rw [h0]
      exact Or.inr ⟨rfl, by simp⟩
  · intro h
    rcases Atoi_outOfRange vb h with h0 | h0
    · rw [h0]
      exact Or.inl ⟨rfl, by simp, by simp [Ledger.put]⟩
    · rw [h0]
      exact Or.inr ⟨rfl, by simp, by simp [Ledger.put]⟩

/-- C16 at concrete inputs: the source text `"abc"` counts as `0`, and with
`X = "10"` the source is written as `"-10"`; the source text
`"99999999999999999999x"` counts as the largest `int`, and with `X = "1"` the
two writes are `"9223372036854775806"` and `"53"`. -/
theorem invoke_malformed_balance_witness :
    (ledgerText "A" = some "abc" ∧ ledgerText "B" = some "50" ∧
      Atoi "abc" = (0, some NumError.invalidText) ∧ Atoi "10" = (10, none) ∧
      Itoa (wrapInt (0 - 10)) = "-10" ∧
      ledgerLong "A" = some "99999999999999999999x" ∧ ledgerLong "B" = some "50" ∧
      Atoi "99999999999999999999x" = (maxInt, some NumError.outOfRange) ∧
      Atoi "1" = (1, none) ∧ Atoi "50" = (50, none) ∧
      Itoa (wrapInt (maxInt - 1)) = "9223372036854775806" ∧
      Itoa (wrapInt (50 + 1 + 2)) = "53") ∧
    ((invoke (Stub.fresh ledgerText) ["A", "B", "10"]).1 = (none, none) ∧
      Call.put "A" (Itoa (wrapInt (0 - (Atoi "10").1)))
        ∈ (invoke (Stub.fresh ledgerText) ["A", "B", "10"]).2.trace) ∧
    ((invoke (Stub.fresh ledgerLong) ["A", "B", "1"]).1 = (none, none) ∧
      (invoke (Stub.fresh ledgerLong) ["A", "B", "1"]).2.trace
        = Call.put "B" (Itoa (wrapInt ((Atoi "50").1 + (Atoi "1").1 + 2))) ::
            Call.put "A"
              (Itoa (wrapInt ((Atoi "99999999999999999999x").1 - (Atoi "1").1))) ::
            Call.get "B" :: Call.get "A" :: (Stub.fresh ledgerLong).trace) :=
  have h := invoke_malformed_balance (Stub.fresh ledgerText) "A" "B" "10" "abc" "50"
    (by decide) (by decide) (by decide) (by decide)
  have h2 := invoke_malformed_balance (Stub.fresh ledgerLong) "A" "B" "1"
    "99999999999999999999x" "50" (by decide) (by decide) (by decide) (by decide)
  ⟨by decide, ⟨h.1, (h.2.2.1 (by decide)).2.1⟩, ⟨h2.1, h2.2.1⟩⟩

/-- C16 as stated fails.  The source text `"99999999999999999999x"` is not a
base-10 integer; `Atoi` stops at the overflow of its digits and returns the
largest `int` with an error, so with `X = "1"` the source is written as
`"9223372036854775806"`, not as the text `"-1"` of `0 - X`.  With the source
text `"abc"` and `X` the smallest `int`, the source is written as the text of
the smallest `int`, not as that of `0 - X`. -/
theorem invoke_malformed_balance_counterexample :
    (ledgerLong "A" = some "99999999999999999999x" ∧
      Atoi "99999999999999999999x" = (9223372036854775807, some NumError.outOfRange) ∧
      Atoi "1" = (1, none) ∧ Itoa (0 - 1) = "-1" ∧
      (invoke (Stub.fresh ledgerLong) ["A", "B", "1"]).1 = (none, none) ∧
      (invoke (Stub.fresh ledgerLong) ["A", "B", "1"]).2.trace
        = [Call.put "B" "53", Call.put "A" "9223372036854775806", Call.get "B", Call.get "A"] ∧
      (invoke (Stub.fresh ledgerLong) ["A", "B", "1"]).2.ledger "A" ≠ some (Itoa (0 - 1))) ∧
    (ledgerText "A" = some "abc" ∧ Atoi "abc" = (0, some NumError.invalidText) ∧
      Atoi "-9223372036854775808" = (-9223372036854775808, none) ∧
      Itoa (0 - -9223372036854775808) = "9223372036854775808" ∧
      (invoke (Stub.fresh ledgerText) ["A", "B", "-9223372036854775808"]).1 = (none, none) ∧
      (invoke (Stub.fresh ledgerText) ["A", "B", "-9223372036854775808"]).2.ledger "A"
        = some "-9223372036854775808") := by
  decide


/-- C17 (as amended): for an amount text that `Atoi` rejects as malformed,
distinct present keys `A` and `B` whose texts `Atoi` decodes without error to
`a` and `b`, and succeeding reads and writes, `invoke [A, B, X]` does not fail:
the amount counts as `0`, `A` is left with the text of `a`, and `B` with the
text of `b + 2` in wrap-around `int` arithmetic, the exact sum whenever
`b + 2` does not exceed the largest `int`. -/
theorem invoke_malformed_amount (s : Stub) (A B X va vb : String) (a b : Int)
    (hAB : A ≠ B)
    (hA : s.ledger A = some va) (hB : s.ledger B = some vb)
    (ha : Atoi va = (a, none)) (hb : Atoi vb = (b, none))
    (hX : (Atoi X).2 = some NumError.invalidText)
    (hr : s.readsOk 2) (hw : s.writesOk 2) :
    (Atoi X).1 = 0 ∧
    (invoke s [A, B, X]).1 = (none, none) ∧
    (invoke s [A, B, X]).2.ledger A = some (Itoa a) ∧
    (invoke s [A, B, X]).2.ledger B = some (Itoa (wrapInt (b + 2))) ∧
    (b + 2 ≤ maxInt → (invoke s [A, B, X]).2.ledger B = some (Itoa (b + 2))) := by
  have hx0 := Atoi_invalidText X hX
  have har : minInt ≤ a ∧ a ≤ maxInt := by
    have h := Atoi_inRange va
    rw [ha] at h
    exact h
  have hbr : minInt ≤ b ∧ b ≤ maxInt := by
    have h := Atoi_inRange vb
    rw [hb] at h
    exact h
  refine ⟨hx0, ?_⟩
  rw [invoke_ok s A B X va vb hA hB hr hw, ha, hb, hx0]
  have e1 : wrapInt a = a := wrapInt_of_inRange a har
  have e2 : b + 0 + 2 = b + 2 := by ring
  refine ⟨rfl, by simp [Ledger.put, hAB, e1], by simp [Ledger.put, e2], ?_⟩
  intro hmax
  have hin : minInt ≤ b + 2 ∧ b + 2 ≤ maxInt := by
    unfold minInt maxInt at *
    omega
  simp [Ledger.put, e2, wrapInt_of_inRange _ hin]

/-- C17 at concrete inputs: the amount `"abc"` on the transfer scenario leaves
`A = "100"` and `B = "52"`. -/
theorem invoke_malformed_amount_witness :
    ("A" ≠ "B" ∧ ledgerAB "A" = some "100" ∧ ledgerAB "B" = some "50" ∧
      Atoi "abc" = (0, some NumError.invalidText) ∧ Itoa 100 = "100" ∧ Itoa (50 + 2) = "52") ∧
    ((invoke (Stub.fresh ledgerAB) ["A", "B", "abc"]).1 = (none, none) ∧
      (invoke (Stub.fresh ledgerAB) ["A", "B", "abc"]).2.ledger "A" = some (Itoa 100) ∧
      (invoke (Stub.fresh ledgerAB) ["A", "B", "abc"]).2.ledger "B" = some (Itoa (50 + 2))) :=
  have h := invoke_malformed_amount (Stub.fresh ledgerAB) "A" "B" "abc" "100" "50" 100 50
    (by decide) (by decide) (by decide) (by decide) (by decide) (by decide) (by decide)
    (by decide)
  ⟨by decide, h.2.1, h.2.2.1, h.2.2.2.2 (by decide)⟩

/-- C17 as stated fails.  The amount `"99999999999999999999x"` is not a base-10
integer numeral; `Atoi` stops at the overflow of its digits and returns the
largest `int`, so the amount is not taken as `0`: `A = "100"` ends at
`"-9223372036854775707"`, not at `"100"`.  With `B` at the largest `int` and
the amount `"abc"`, `B` ends at `"-9223372036854775807"`, not at the text of
`oldB + 2`. -/
theorem invoke_malformed_amount_counterexample :
    ("A" ≠ "B" ∧ ledgerAB "A" = some "100" ∧ ledgerAB "B" = some "50" ∧
      Atoi "100" = (100, none) ∧ Atoi "50" = (50, none) ∧
      Atoi "99999999999999999999x" = (9223372036854775807, some NumError.outOfRange) ∧
      (invoke (Stub.fresh ledgerAB) ["A", "B", "99999999999999999999x"]).1 = (none, none) ∧
      (invoke (Stub.fresh ledgerAB) ["A", "B", "99999999999999999999x"]).2.ledger "A"
        = some "-9223372036854775707" ∧
      (invoke (Stub.fresh ledgerAB) ["A", "B", "99999999999999999999x"]).2.ledger "A"
        ≠ some (Itoa 100)) ∧
    (ledgerMax "B" = some "9223372036854775807" ∧
      Atoi "9223372036854775807" = (9223372036854775807, none) ∧
      Atoi "abc" = (0, some NumError.invalidText) ∧
      Itoa (9223372036854775807 + 2) = "9223372036854775809" ∧
      (invoke (Stub.fresh ledgerMax) ["A", "B", "abc"]).1 = (none, none) ∧
      (invoke (Stub.fresh ledgerMax) ["A", "B", "abc"]).2.ledger "B"
        = some "-9223372036854775807") := by
  decide

/-- C18 (as amended): when source and destination are the same key `A`, whose
text `Atoi` decodes without error to `v`, and the amount text decodes without
error to `x`, `invoke [A, A, X]` with succeeding reads and writes succeeds;
both reads come before both writes, the write of `v - x` comes first and the
write of `v + x + 2` last, so the key is left with the text of `v + x + 2` in
wrap-around `int` arithmetic, the exact sum whenever it lies in the `int`
range: the debit of `x` is lost. -/
theorem invoke_same_key (s : Stub) (A X va : String) (v x : Int)
    (hA : s.ledger A = some va)
    (hv : Atoi va = (v, none)) (hx : Atoi X = (x, none))
    (hr : s.readsOk 2) (hw : s.writesOk 2) :
    (invoke s [A, A, X]).1 = (none, none) ∧
    (invoke s [A, A, X]).2.trace
      = Call.put A (Itoa (wrapInt (v + x + 2))) :: Call.put A (Itoa (wrapInt (v - x))) ::
          Call.get A :: Call.get A :: s.trace ∧
    (invoke s [A, A, X]).2.ledger A = some (Itoa (wrapInt (v + x + 2))) ∧
    (minInt ≤ v + x + 2 ∧ v + x + 2 ≤ maxInt →
      (invoke s [A, A, X]).2.ledger A = some (Itoa (v + x + 2))) := by
  rw [invoke_ok s A A X va va hA hA hr hw, hv, hx]
  refine ⟨rfl, rfl, by simp [Ledger.put], ?_⟩
  intro hin
  rw [wrapInt_of_inRange _ hin]
  simp [Ledger.put]

/-- C18 at concrete inputs: `A = "100"` and `X = "10"` leave `A = "112"`. -/
theorem invoke_same_key_witness :
    (ledgerAB "A" = some "100" ∧ Atoi "100" = (100, none) ∧ Atoi "10" = (10, none) ∧
      Itoa (100 + 10 + 2) = "112") ∧
    ((invoke (Stub.fresh ledgerAB) ["A", "A", "10"]).1 = (none, none) ∧
      (invoke (Stub.fresh ledgerAB) ["A", "A", "10"]).2.ledger "A"
        = some (Itoa (100 + 10 + 2))) :=
  have h := invoke_same_key (Stub.fresh ledgerAB) "A" "10" "100" 100 10
    (by decide) (by decide) (by decide) (by decide) (by decide)
  ⟨by decide, h.1, h.2.2.2 (by decide)⟩

/-- C18 as stated fails at the edge of the `int` range.  With `A` at the
largest `int` and `X = "0"` the call succeeds and leaves `A` with
`"-9223372036854775807"`, not with the text `"9223372036854775809"` of
`v + X + 2`. -/
theorem invoke_same_key_counterexample :
    ledgerMax "A" = some "9223372036854775807" ∧
    Atoi "9223372036854775807" = (9223372036854775807, none) ∧
    Atoi "0" = (0, none) ∧
    Itoa (9223372036854775807 + 0 + 2) = "9223372036854775809" ∧
    (invoke (Stub.fresh ledgerMax) ["A", "A", "0"]).1 = (none, none) ∧
    (invoke (Stub.fresh ledgerMax) ["A", "A", "0"]).2.ledger "A"
      = some "-9223372036854775807" ∧
    (invoke (Stub.fresh ledgerMax) ["A", "A", "0"]).2.ledger "A"
      ≠ some (Itoa (9223372036854775807 + 0 + 2)) := by
  decide


/-! ## Submitting `invoke` twice -/

theorem nextFault_drop_tail_tail (l : List (Option Error)) (i : Nat) :
    nextFault (l.tail.tail.drop i) = nextFault (l.drop (i + 2)) := by
  rw [← drop_two_eq, List.drop_drop, Nat.add_comm]

/-- C15: `invoke` is not idempotent.  For distinct present keys `A` and `B`
whose texts decode to `a` and `b`, an amount text that decodes to `x`, reads and
writes that succeed, and results of both submissions within the `int` range,
the first `invoke [A, B, X]` leaves the texts of `a - x` and `b + x + 2`, which
`Atoi` decodes back without error; the second submission succeeds and leaves
`A` with the text of `a - 2 * x` and `B` with the text of `b + 2 * x + 4`; and
the ledger after the second submission differs from the ledger after the
first. -/
theorem invoke_twice (s : Stub) (A B X va vb : String) (a b x : Int)
    (hAB : A ≠ B)
    (hA : s.ledger A = some va) (hB : s.ledger B = some vb)
    (ha : Atoi va = (a, none)) (hb : Atoi vb = (b, none)) (hx : Atoi X = (x, none))
    (hr : s.readsOk 4) (hw : s.writesOk 4)
    (h1a : minInt ≤ a - x ∧ a - x ≤ maxInt)
    (h1b : minInt ≤ b + x + 2 ∧ b + x + 2 ≤ maxInt)
    (h2a : minInt ≤ a - 2 * x ∧ a - 2 * x ≤ maxInt)
    (h2b : minInt ≤ b + 2 * x + 4 ∧ b + 2 * x + 4 ≤ maxInt) :
    (invoke s [A, B, X]).1 = (none, none) ∧
    (invoke s [A, B, X]).2.ledger A = some (Itoa (a - x)) ∧
    (invoke s [A, B, X]).2.ledger B = some (Itoa (b + x + 2)) ∧
    Atoi (Itoa (a - x)) = (a - x, none) ∧
    Atoi (Itoa (b + x + 2)) = (b + x + 2, none) ∧
    (invoke (invoke s [A, B, X]).2 [A, B, X]).1 = (none, none) ∧
    (invoke (invoke s [A, B, X]).2 [A, B, X]).2.ledger A = some (Itoa (a - 2 * x)) ∧
    (invoke (invoke s [A, B, X]).2 [A, B, X]).2.ledger B = some (Itoa (b + 2 * x + 4)) ∧
    (invoke (invoke s [A, B, X]).2 [A, B, X]).2.ledger ≠ (invoke s [A, B, X]).2.ledger := by
  have hBA : B ≠ A := fun h => hAB h.symm
  have hr2 : s.readsOk 2 := fun i hi => hr i (by omega)
  have hw2 : s.writesOk 2 := fun i hi => hw i (by omega)
  have dA : Atoi (Itoa (a - x)) = (a - x, none) := Atoi_Itoa _ h1a
  have dB : Atoi (Itoa (b + x + 2)) = (b + x + 2, none) := Atoi_Itoa _ h1b
  have e1 := invoke_ok s A B X va vb hA hB hr2 hw2
  rw [ha, hb, hx] at e1
  simp only [wrapInt_of_inRange _ h1a, wrapInt_of_inRange _ h1b] at e1
  rw [e1]
  have hA1 : ((s.ledger.put A (Itoa (a - x))).put B (Itoa (b + x + 2)) : Ledger) A
      = some (Itoa (a - x)) := by
    simp [Ledger.put, hAB]
  have hB1 : ((s.ledger.put A (Itoa (a - x))).put B (Itoa (b + x + 2)) : Ledger) B
      = some (Itoa (b + x + 2)) := by
    simp [Ledger.put]
  have e2 := invoke_ok
    { ledger := (s.ledger.put A (Itoa (a - x))).put B (Itoa (b + x + 2)),
      getFaults := s.getFaults.tail.tail,
      putFaults := s.putFaults.tail.tail,
      delFaults := s.delFaults,
      trace := Call.put B (Itoa (b + x + 2)) :: Call.put A (Itoa (a - x)) ::
               Call.get B :: Call.get A :: s.trace }
    A B X (Itoa (a - x)) (Itoa (b + x + 2)) hA1 hB1
    (fun i hi => by
      show nextFault (s.getFaults.tail.tail.drop i) = none
      rw [nextFault_drop_tail_tail]
      exact hr (i + 2) (by omega))
    (fun i hi => by
      show nextFault (s.putFaults.tail.tail.drop i) = none
      rw [nextFault_drop_tail_tail]
      exact hw (i + 2) (by omega))
  rw [dA, dB, hx] at e2
  have ea : a - x - x = a - 2 * x := by ring
  have eb : b + x + 2 + x + 2 = b + 2 * x + 4 := by ring
  simp only [ea, eb, wrapInt_of_inRange _ h2a, wrapInt_of_inRange _ h2b] at e2
  rw [e2]
  refine ⟨rfl, hA1, hB1, dA, dB, rfl, by simp [Ledger.put, hAB], by simp [Ledger.put], ?_⟩
  intro hEq
  have hEqA := congrFun hEq A
  have hEqB := congrFun hEq B
  simp [Ledger.put, hAB] at hEqA hEqB
  have iA := Itoa_injective _ _ h2a h1a hEqA
  have iB := Itoa_injective _ _ h2b h1b hEqB
  omega

/-- C15 at the transfer scenario: two submissions of `["A", "B", "10"]` take
`A` from `100` to `90` and then `80`, and `B` from `50` to `62` and then `74`. -/
theorem invoke_twice_witness :
    ("A" ≠ "B" ∧ ledgerAB "A" = some "100" ∧ ledgerAB "B" = some "50" ∧
      Itoa (100 - 10) = "90" ∧ Itoa (50 + 10 + 2) = "62" ∧
      Itoa (100 - 2 * 10) = "80" ∧ Itoa (50 + 2 * 10 + 4) = "74") ∧
    ((invoke (invoke (Stub.fresh ledgerAB) ["A", "B", "10"]).2 ["A", "B", "10"]).1
        = (none, none) ∧
      (invoke (invoke (Stub.fresh ledgerAB) ["A", "B", "10"]).2 ["A", "B", "10"]).2.ledger "A"
        = some (Itoa (100 - 2 * 10)) ∧
      (invoke (invoke (Stub.fresh ledgerAB) ["A", "B", "10"]).2 ["A", "B", "10"]).2.ledger "B"
        = some (Itoa (50 + 2 * 10 + 4)) ∧
      (invoke (invoke (Stub.fresh ledgerAB) ["A", "B", "10"]).2 ["A", "B", "10"]).2.ledger
        ≠ (invoke (Stub.fresh ledgerAB) ["A", "B", "10"]).2.ledger) :=
  have h := invoke_twice (Stub.fresh ledgerAB) "A" "B" "10" "100" "50" 100 50 10
    (by decide) (by decide) (by decide) (by decide) (by decide) (by decide)
    (by decide) (by decide) (by decide) (by decide) (by decide) (by decide)
  ⟨by decide, h.2.2.2.2.2.1, h.2.2.2.2.2.2.1, h.2.2.2.2.2.2.2.1, h.2.2.2.2.2.2.2.2⟩

end Chaincode
